import Mathlib

/-!
# IWXMVM — Direct3D 9 interception core (`src/core/src/D3D9.cpp`)

A shallow embedding of the hook functions of `IWXMVM::D3D9`:

* `CheckForOverlays`         — call-site classifier with its two-slot static cache,
* `CreateDevice_Hook`        — device-create interception,
* `EndScene_Hook`            — primary end-of-frame interception,
* `ReshadeOriginalEndScene_Hook` — end-of-frame interception behind a foreign chain,
* `Reset_Hook`               — device-reset interception,
* `CheckPresenceReshade`     — bounded memory probe for a foreign chain.

Conventions.  Pointers and `uintptr_t` values are natural numbers (`0` is `nullptr`);
the target is a 32-bit little-endian process, so `uintptr_t` arithmetic is taken
modulo `2 ^ 32` and a pointer occupies four bytes.  Calls that leave the translation
unit (UI manager, graphics manager, GUI back-end, the real Direct3D functions) are
recorded, in program order, as a list of `Call` values; their results are inputs of
the embedded function.
-/

namespace IWXMVM.D3D9

/-! # Definitions -/

/-! ## Strings -/

/-- Does `hay` start with `needle`? -/
def startsWith : List Char → List Char → Bool
  | _, [] => true
  | [], _ :: _ => false
  | h :: hs, n :: ns => h == n && startsWith hs ns

/-- The position of the first occurrence of `needle` in `hay`, as
`std::string_view::find` computes it (`none` is `npos`).  The comparison is
character by character, hence case-sensitive. -/
def find : List Char → List Char → Option Nat
  | [], needle => if startsWith [] needle then some 0 else none
  | h :: hs, needle =>
    if startsWith (h :: hs) needle then some 0
    else (find hs needle).map Nat.succ

/-! ## The call-site classifier -/

/-- The `overlayNames` array of `CheckForOverlays`. -/
def overlayNames : List (List Char) :=
  ["gameoverlay".toList,  -- Steam
   "discord".toList]      -- Discord

/-- Initial value of the static `returnAddresses` array: value-initialised,
one zero per overlay name. -/
def emptyCache : List Nat := overlayNames.map (fun _ => 0)

/-- The `for` loop of `CheckForOverlays`, from index `i` on: `names` and `slots` are
the parts of `overlayNames` and `returnAddresses` from `i` on.  `moduleOf` stands
for `VirtualQuery` followed by `GetModuleFileName`: the path of the module owning an
address.  Returns the updated slots and the verdict. -/
def checkLoop (moduleOf : Nat → List Char) (returnAddress : Nat) :
    List (List Char) → List Nat → List Nat × Bool
  | name :: names, slot :: slots =>
    if slot = 0 then
      if (find (moduleOf returnAddress) name).isSome then
        (returnAddress :: slots, true)
      else
        let r := checkLoop moduleOf returnAddress names slots
        (slot :: r.1, r.2)
    else if slot = returnAddress then
      (slot :: slots, true)
    else
      let r := checkLoop moduleOf returnAddress names slots
      (slot :: r.1, r.2)
  | _, slots => (slots, false)

/-- Function `bool CheckForOverlays(std::uintptr_t returnAddress)`, with the static array
`returnAddresses` passed in and out.  `true` is the verdict "known overlay". -/
def CheckForOverlays (moduleOf : Nat → List Char) (returnAddress : Nat)
    (returnAddresses : List Nat) : List Nat × Bool :=
  checkLoop moduleOf returnAddress overlayNames returnAddresses

/-- A run of classifier calls: the verdicts, in order, and the final cache. -/
def classifyAll (moduleOf : Nat → List Char) : List Nat → List Nat → List Nat × List Bool
  | [], cache => (cache, [])
  | a :: rest, cache =>
    let r := CheckForOverlays moduleOf a cache
    let t := classifyAll moduleOf rest r.1
    (t.1, r.2 :: t.2)

/-! ## Hooks -/

/-- Result code type `HRESULT`. -/
abbrev HRESULT := Int

/-- Success code `D3D_OK`. -/
def D3D_OK : HRESULT := 0

/-- Calls made by the hooks to code outside the translation unit. -/
inductive Call where
  /-- Call of `GFX::GraphicsManager::Get().Uninitialize()` -/
  | GraphicsUninitialize
  /-- Call of `GFX::GraphicsManager::Get().Initialize()` -/
  | GraphicsInitialize
  /-- Call of `GFX::GraphicsManager::Get().Render()` -/
  | GraphicsRender
  /-- Call of `UI::UIManager::Get().ShutdownImGui()` -/
  | UIShutdownImGui
  /-- Call of `UI::UIManager::Get().Initialize(device, hwnd)`; `hwnd = none` when the
  argument is left to its default. -/
  | UIInitialize (device : Nat) (hwnd : Option Nat)
  /-- Call of `UI::UIManager::Get().RunImGuiFrame()` -/
  | RunImGuiFrame
  /-- Call of `component->Release()` for the UI component `c` -/
  | ComponentRelease (c : Nat)
  /-- Call of `ImGui_ImplDX9_InvalidateDeviceObjects()` -/
  | InvalidateDeviceObjects
  /-- Call of `ImGui_ImplDX9_CreateDeviceObjects()` -/
  | CreateDeviceObjects
  /-- Call of the trampoline `CreateDevice(...)` -/
  | RealCreateDevice
  /-- Call of the trampoline `EndScene(pDevice)` -/
  | RealEndScene
  /-- Call of the trampoline `ReshadeOriginalEndScene(pDevice)` -/
  | RealReshadeOriginalEndScene
  /-- Call of the trampoline `Reset(pDevice, pPresentationParameters)` -/
  | RealReset
  deriving DecidableEq, Repr

/-- The globals of the translation unit that the hooks read or write. -/
structure State where
  /-- Global `IDirect3DDevice9* device` -/
  device : Nat
  /-- Global `std::optional<void*> reshadeEndSceneAddress` -/
  reshadeEndSceneAddress : Option Nat
  /-- Global `bool calledByEndscene` -/
  calledByEndscene : Bool
  /-- Static array `returnAddresses` of `CheckForOverlays` -/
  returnAddresses : List Nat
  deriving DecidableEq, Repr

/-- State at program start. -/
def State.initial : State :=
  { device := 0, reshadeEndSceneAddress := none, calledByEndscene := false,
    returnAddresses := emptyCache }

/-- Outcome of one hook invocation. -/
structure Outcome where
  /-- Globals after the call -/
  state : State
  /-- External calls made, in order -/
  calls : List Call
  /-- Value returned to the host -/
  ret : HRESULT
  deriving DecidableEq, Repr

/-- What the real `CreateDevice` hands back: its result code, the pointer it
stored in `*ppReturnedDeviceInterface`, and `pPresentationParameters->hDeviceWindow`
as it stands after the call. -/
structure CreateResult where
  hr : HRESULT
  returnedDevice : Nat
  hDeviceWindow : Nat
  deriving DecidableEq, Repr

/-- Hook `CreateDevice_Hook`. -/
def CreateDevice_Hook (real : CreateResult) (s : State) : Outcome :=
  let pre := [Call.GraphicsUninitialize, Call.UIShutdownImGui, Call.RealCreateDevice]
  if real.hr ≠ D3D_OK then
    { state := s, calls := pre, ret := real.hr }
  else
    let s1 := { s with device := real.returnedDevice }
    { state := s1,
      calls := pre ++ [Call.UIInitialize s1.device (some real.hDeviceWindow),
                       Call.GraphicsInitialize],
      ret := real.hr }

/-- Hook `EndScene_Hook`.  `returnAddress` is `_ReturnAddress()`, `uiInitialized` the
answer of `UIManager::IsInitialized()`, `inDemo` whether the game state is
`InDemo`, `hr` the result of the real `EndScene`. -/
def EndScene_Hook (moduleOf : Nat → List Char) (returnAddress : Nat)
    (uiInitialized inDemo : Bool) (pDevice : Nat) (hr : HRESULT) (s : State) : Outcome :=
  let c := CheckForOverlays moduleOf returnAddress s.returnAddresses
  let s0 := { s with returnAddresses := c.1 }
  if c.2 then
    { state := s0, calls := [Call.RealEndScene], ret := hr }
  else
    let s1 := if !uiInitialized then { s0 with device := pDevice } else s0
    let c1 := if !uiInitialized then [Call.UIInitialize pDevice none, Call.GraphicsInitialize]
              else []
    let c2 := if inDemo then [Call.GraphicsRender] else []
    let c3 := if !s1.reshadeEndSceneAddress.isSome then [Call.RunImGuiFrame] else []
    { state := { s1 with calledByEndscene := true },
      calls := c1 ++ c2 ++ c3 ++ [Call.RealEndScene],
      ret := hr }

/-- Hook `ReshadeOriginalEndScene_Hook`; `hr` is the result of the real function. -/
def ReshadeOriginalEndScene_Hook (hr : HRESULT) (s : State) : Outcome :=
  if s.calledByEndscene then
    { state := { s with calledByEndscene := false },
      calls := [Call.RealReshadeOriginalEndScene], ret := hr }
  else
    { state := s, calls := [Call.RunImGuiFrame, Call.RealReshadeOriginalEndScene], ret := hr }

/-- Hook `Reset_Hook`.  `components` is `UIManager::GetUIComponents()`, `hr` the result
of the real `Reset`, `uiInitialized` the answer of `UIManager::IsInitialized()`. -/
def Reset_Hook (components : List Nat) (hr : HRESULT) (uiInitialized : Bool)
    (s : State) : Outcome :=
  let release := components.map Call.ComponentRelease
  let c1 := [Call.GraphicsUninitialize, Call.InvalidateDeviceObjects, Call.RealReset,
             Call.CreateDeviceObjects]
  let c2 := if uiInitialized then [Call.GraphicsInitialize] else []
  { state := s, calls := release ++ c1 ++ c2, ret := hr }

/-! ## The foreign-chain probe -/

/-- The fields of `MEMORY_BASIC_INFORMATION` that `SafeRead` inspects. -/
structure MBI where
  /-- Field `State` -/
  State : Nat
  /-- Field `Protect` -/
  Protect : Nat
  deriving DecidableEq, Repr

/-- A process memory image: what `VirtualQuery` reports for an address, and the
byte stored there. -/
structure Memory where
  /-- Answer of `VirtualQuery` for an address -/
  query : Nat → MBI
  /-- Byte stored at an address (taken modulo 256) -/
  byte : Nat → Nat

/-- Windows SDK constant `MEM_COMMIT`. -/
def MEM_COMMIT : Nat := 0x1000

/-- Windows SDK constant `PAGE_NOACCESS`. -/
def PAGE_NOACCESS : Nat := 0x01

/-- Windows SDK constant `PAGE_READONLY`. -/
def PAGE_READONLY : Nat := 0x02

/-- Windows SDK constant `PAGE_READWRITE`. -/
def PAGE_READWRITE : Nat := 0x04

/-- Windows SDK constant `PAGE_WRITECOPY`. -/
def PAGE_WRITECOPY : Nat := 0x08

/-- Windows SDK constant `PAGE_EXECUTE_READ`. -/
def PAGE_EXECUTE_READ : Nat := 0x20

/-- Windows SDK constant `PAGE_EXECUTE_READWRITE`. -/
def PAGE_EXECUTE_READWRITE : Nat := 0x40

/-- Windows SDK constant `PAGE_EXECUTE_WRITECOPY`. -/
def PAGE_EXECUTE_WRITECOPY : Nat := 0x80

/-- Windows SDK constant `PAGE_GUARD`. -/
def PAGE_GUARD : Nat := 0x100

/-- Size of `uintptr_t` in bytes on the 32-bit target. -/
def ptrSize : Nat := 4

/-- Wrap-around of `uintptr_t` arithmetic. -/
def wrap (a : Nat) : Nat := a % 2 ^ 32

/-- The pointer-sized little-endian load `*reinterpret_cast<uintptr_t**>(address)`. -/
def load (mem : Memory) (address : Nat) : Nat :=
  mem.byte address % 256 + 256 * (mem.byte (address + 1) % 256)
    + 65536 * (mem.byte (address + 2) % 256) + 16777216 * (mem.byte (address + 3) % 256)

/-- The lambda `SafeRead` of `CheckPresenceReshade`; `0` is `nullptr`. -/
def SafeRead (mem : Memory) (address : Nat) : Nat :=
  let mbi := mem.query address
  if mbi.State &&& MEM_COMMIT = 0 then 0
  else if mbi.Protect &&& (PAGE_GUARD ||| PAGE_NOACCESS) ≠ 0 then 0
  else if mbi.Protect &&& (PAGE_READONLY ||| PAGE_READWRITE ||| PAGE_WRITECOPY |||
      PAGE_EXECUTE_READ ||| PAGE_EXECUTE_READWRITE ||| PAGE_EXECUTE_WRITECOPY) = 0 then 0
  else load mem address

/-- The array `ORIGINAL_ENDSCENE_BYTES`. -/
def ORIGINAL_ENDSCENE_BYTES : List Nat := [0x6A, 0x14, 0xB8]

/-- The function `std::memcmp(p, bytes, bytes.size())`: zero exactly when the bytes
at `p` equal `bytes`, otherwise the sign of the first difference. -/
def memcmp (mem : Memory) : Nat → List Nat → Int
  | _, [] => 0
  | p, b :: bs =>
    if mem.byte p % 256 < b then -1
    else if b < mem.byte p % 256 then 1
    else memcmp mem (p + 1) bs

/-- One iteration of the probe loop of `CheckPresenceReshade` at `offset`:
`none` when the iteration ends in `continue` (or falls through without a match),
`some endSceneCandidate` when it reaches the `break`. -/
def probeAt (mem : Memory) (deviceAddress offset : Nat) : Option Nat :=
  let originalDevice := SafeRead mem (wrap (deviceAddress + offset))
  if originalDevice = 0 then none
  else
    let table := SafeRead mem originalDevice
    if table = 0 then none
    else
      let endSceneCandidate := SafeRead mem (wrap (table + 42 * ptrSize))
      if endSceneCandidate = 0 then none
      else if SafeRead mem endSceneCandidate = 0 then none
      else if memcmp mem endSceneCandidate ORIGINAL_ENDSCENE_BYTES = 0 then
        some endSceneCandidate
      else none

/-- The loop `for (offset = 0x4; offset < 0x20; offset += 0x4)` from a given value
of `offset` on: the offset and candidate of the iteration that breaks, if any. -/
def probeFrom (mem : Memory) (deviceAddress offset : Nat) : Option (Nat × Nat) :=
  if offset < 0x20 then
    match probeAt mem deviceAddress offset with
    | some endSceneCandidate => some (offset, endSceneCandidate)
    | none => probeFrom mem deviceAddress (offset + 0x4)
  else none
termination_by 0x20 - offset

/-- The calls made after the first occurrence of `c`. -/
def callsAfter (c : Call) : List Call → List Call
  | [] => []
  | x :: xs => if x = c then xs else callsAfter c xs

/-- The calls made before the first occurrence of `c`. -/
def callsBefore (c : Call) : List Call → List Call
  | [] => []
  | x :: xs => if x = c then [] else x :: callsBefore c xs

/-- Device-ready notifications of the reset path: the GUI device objects are
re-created, the renderer is re-initialised. -/
def isDeviceReady : Call → Bool
  | Call.CreateDeviceObjects => true
  | Call.GraphicsInitialize => true
  | _ => false

/-- Will-reset releases of the reset path. -/
def isWillReset : Call → Bool
  | Call.ComponentRelease _ => true
  | Call.GraphicsUninitialize => true
  | Call.InvalidateDeviceObjects => true
  | _ => false

/-- Device-created notifications of the create path. -/
def isDeviceCreated : Call → Bool
  | Call.UIInitialize _ _ => true
  | Call.GraphicsInitialize => true
  | _ => false

/-- Does some occurrence of `a` come before some occurrence of `b`? -/
def occursBefore (a b : Call) : List Call → Bool
  | [] => false
  | x :: xs => (x = a && decide (b ∈ xs)) || occursBefore a b xs

/-- Result code `D3DERR_DEVICELOST` (`0x88760868` as a signed 32-bit value). -/
def D3DERR_DEVICELOST : HRESULT := -2005530520

/-- The test `FAILED(hr)` of the Direct3D headers. -/
def FAILED (hr : HRESULT) : Bool := decide (hr < 0)

/-! ## Frames of end-of-frame firings -/

/-- One firing of an end-of-frame hook, with the inputs of that firing. -/
inductive Firing where
  /-- Firing of `EndScene_Hook` -/
  | primary (returnAddress : Nat) (uiInitialized inDemo : Bool) (pDevice : Nat)
      (hr : HRESULT)
  /-- Firing of `ReshadeOriginalEndScene_Hook` -/
  | recovered (hr : HRESULT)
  deriving DecidableEq, Repr

/-- Run one firing. -/
def fire (moduleOf : Nat → List Char) : Firing → State → Outcome
  | Firing.primary returnAddress uiInitialized inDemo pDevice hr, s =>
    EndScene_Hook moduleOf returnAddress uiInitialized inDemo pDevice hr s
  | Firing.recovered hr, s => ReshadeOriginalEndScene_Hook hr s

/-- Run the firings of a frame in order: the globals afterwards and all calls made.
A recovered-hook firing that happens under the forwarded call of the primary hook is
listed right after it: `EndScene_Hook` writes its globals before it forwards and
touches nothing afterwards, so the nested firing sees and leaves the same globals. -/
def runFrame (moduleOf : Nat → List Char) : List Firing → State → State × List Call
  | [], s => (s, [])
  | f :: fs, s =>
    let o := fire moduleOf f s
    let r := runFrame moduleOf fs o.state
    (r.1, o.calls ++ r.2)

/-! ## Sample module resolutions and states -/

/-- A module resolution that puts every address in the game executable. -/
def gameModule : Nat → List Char := fun _ => "C:/Games/CoD4/iw3mp.exe".toList

/-- A module resolution that puts every address in the Steam overlay. -/
def steamModule : Nat → List Char :=
  fun _ => "C:/Steam/gameoverlayrenderer.dll".toList

/-- A module resolution that puts every address in the Steam overlay, with the
file name in the letter case the vendor ships it in. -/
def steamModuleMixedCase : Nat → List Char :=
  fun _ => "C:/Steam/GameOverlayRenderer.dll".toList

/-- A module resolution that puts every address in a module named `Discord`. -/
def discordModuleMixedCase : Nat → List Char := fun _ => "Discord".toList

/-- A state in which a foreign chain was detected, with a given `calledByEndscene`. -/
def chainState (flag : Bool) : State :=
  { device := 1, reshadeEndSceneAddress := some 0x5000, calledByEndscene := flag,
    returnAddresses := emptyCache }

/-! ## Predicates on the classifier cache -/

/-- Is `a` stored in one of the slots the loop looks at? -/
def cached (a : Nat) : List (List Char) → List Nat → Bool
  | _ :: names, slot :: slots => decide (slot = a) || cached a names slots
  | _, _ => false

/-- Every occupied slot holds an address whose module path contains the overlay
name of that slot. -/
def cacheSound (moduleOf : Nat → List Char) : List (List Char) → List Nat → Bool
  | name :: names, slot :: slots =>
    (decide (slot = 0) || (find (moduleOf slot) name).isSome)
      && cacheSound moduleOf names slots
  | _, _ => true

/-! ## The detection property -/

/-- The offsets the probe loop visits. -/
def probeWindow : List Nat := [0x4, 0x8, 0xC, 0x10, 0x14, 0x18, 0x1C]

/-- A memory query reports the address committed, without guard or no-access
protection, and with one of the readable protections. -/
def isReadable (mem : Memory) (address : Nat) : Bool :=
  decide ((mem.query address).State &&& MEM_COMMIT ≠ 0)
    && decide ((mem.query address).Protect &&& (PAGE_GUARD ||| PAGE_NOACCESS) = 0)
    && decide ((mem.query address).Protect &&& (PAGE_READONLY ||| PAGE_READWRITE |||
        PAGE_WRITECOPY ||| PAGE_EXECUTE_READ ||| PAGE_EXECUTE_READWRITE |||
        PAGE_EXECUTE_WRITECOPY) ≠ 0)

/-- What a successful `VirtualQuery` writes to `MEMORY_BASIC_INFORMATION`: the extent
of the region of pages around the address, and the fields `SafeRead` tests. -/
structure Region where
  /-- Field `BaseAddress` -/
  BaseAddress : Nat
  /-- Field `RegionSize` -/
  RegionSize : Nat
  /-- Field `State` -/
  State : Nat
  /-- Field `Protect` -/
  Protect : Nat
  deriving DecidableEq, Repr

/-- A process as the probe meets it.  `VirtualQuery` can fail: it then returns zero
and writes nothing to the buffer it was given (`none`). -/
structure Process where
  /-- Outcome of `VirtualQuery` for an address -/
  virtualQuery : Nat → Option Region
  /-- Byte stored at an address (taken modulo 256) -/
  byte : Nat → Nat

/-- The bytes of a process as a memory image, for `load` and `memcmp`, which look at
nothing but the bytes. -/
def Process.bytes (proc : Process) : Memory :=
  { query := fun _ => ⟨0, 0⟩, byte := proc.byte }

/-- A memory access made by the probe. -/
inductive Access where
  /-- Call of `VirtualQuery` for an address -/
  | query (address : Nat)
  /-- Read of `size` bytes starting at an address -/
  | read (address size : Nat)
  deriving DecidableEq, Repr

/-- The address an access is made at. -/
def Access.address : Access → Nat
  | Access.query a => a
  | Access.read a _ => a

/-- The local `mbi` of `SafeRead` after the `VirtualQuery` call, whose return value
is not looked at: what the call wrote when it succeeded, and otherwise the content
`uninit` that the uninitialised local happened to have. -/
def mbiAfterQuery (proc : Process) (uninit : MBI) (address : Nat) : MBI :=
  match proc.virtualQuery address with
  | some region => ⟨region.State, region.Protect⟩
  | none => uninit

/-- The lambda `SafeRead` with the accesses it makes: the value it returns, then the
`VirtualQuery` call and, when the three tests on `mbi` let it through, the
pointer-sized read.  `uninit` is the content of the uninitialised `mbi` of this
call. -/
def SafeReadTraced (proc : Process) (uninit : MBI) (address : Nat) : Nat × List Access :=
  let mbi := mbiAfterQuery proc uninit address
  if mbi.State &&& MEM_COMMIT = 0 then (0, [Access.query address])
  else if mbi.Protect &&& (PAGE_GUARD ||| PAGE_NOACCESS) ≠ 0 then (0, [Access.query address])
  else if mbi.Protect &&& (PAGE_READONLY ||| PAGE_READWRITE ||| PAGE_WRITECOPY |||
      PAGE_EXECUTE_READ ||| PAGE_EXECUTE_READWRITE ||| PAGE_EXECUTE_WRITECOPY) = 0 then
    (0, [Access.query address])
  else (load proc.bytes address, [Access.query address, Access.read address ptrSize])

/-- One iteration of the probe loop with the accesses it makes; `std::memcmp` is one
read of `ORIGINAL_ENDSCENE_BYTES.size()` bytes at `endSceneCandidate`.  The argument
`uninit` gives the content of the uninitialised `mbi` for each of the four `SafeRead`
calls of the iteration, numbered `0` to `3`. -/
def probeAtTraced (proc : Process) (uninit : Nat → MBI) (deviceAddress offset : Nat) :
    Option Nat × List Access :=
  let originalDevice := SafeReadTraced proc (uninit 0) (wrap (deviceAddress + offset))
  if originalDevice.1 = 0 then (none, originalDevice.2)
  else
    let table := SafeReadTraced proc (uninit 1) originalDevice.1
    if table.1 = 0 then (none, originalDevice.2 ++ table.2)
    else
      let endSceneCandidate := SafeReadTraced proc (uninit 2) (wrap (table.1 + 42 * ptrSize))
      if endSceneCandidate.1 = 0 then
        (none, originalDevice.2 ++ table.2 ++ endSceneCandidate.2)
      else
        let check := SafeReadTraced proc (uninit 3) endSceneCandidate.1
        if check.1 = 0 then
          (none, originalDevice.2 ++ table.2 ++ endSceneCandidate.2 ++ check.2)
        else
          let accesses := originalDevice.2 ++ table.2 ++ endSceneCandidate.2 ++ check.2
            ++ [Access.read endSceneCandidate.1 ORIGINAL_ENDSCENE_BYTES.length]
          if memcmp proc.bytes endSceneCandidate.1 ORIGINAL_ENDSCENE_BYTES = 0 then
            (some endSceneCandidate.1, accesses)
          else (none, accesses)

/-- The probe loop from a given `offset` on, with the accesses it makes; `uninit`
gives the content of the uninitialised `mbi` per iteration (by its offset) and
`SafeRead` call. -/
def probeFromTraced (proc : Process) (uninit : Nat → Nat → MBI)
    (deviceAddress offset : Nat) : Option (Nat × Nat) × List Access :=
  if offset < 0x20 then
    match probeAtTraced proc (uninit offset) deviceAddress offset with
    | (some endSceneCandidate, accesses) => (some (offset, endSceneCandidate), accesses)
    | (none, accesses) =>
      let rest := probeFromTraced proc uninit deviceAddress (offset + 0x4)
      (rest.1, accesses ++ rest.2)
  else (none, [])
termination_by 0x20 - offset

/-- All memory accesses of `CheckPresenceReshade(device)`, in program order. -/
def CheckPresenceReshadeAccesses (proc : Process) (uninit : Nat → Nat → MBI)
    (device : Nat) : List Access :=
  (probeFromTraced proc uninit device 0x4).2

/-- The memory image the value-level embedding `SafeRead` works on: its query
component is the content of `mbi` after the call, answered or not. -/
def Process.image (proc : Process) (uninit : MBI) : Memory :=
  { query := mbiAfterQuery proc uninit, byte := proc.byte }

/-- A region reported committed, without guard or no-access protection, and with a
readable protection. -/
def Region.readable (region : Region) : Bool :=
  decide (region.State &&& MEM_COMMIT ≠ 0)
    && decide (region.Protect &&& (PAGE_GUARD ||| PAGE_NOACCESS) = 0)
    && decide (region.Protect &&& (PAGE_READONLY ||| PAGE_READWRITE |||
        PAGE_WRITECOPY ||| PAGE_EXECUTE_READ ||| PAGE_EXECUTE_READWRITE |||
        PAGE_EXECUTE_WRITECOPY) ≠ 0)

/-- What the last `VirtualQuery` call vouches for: the address asked about and the
region reported, when the call succeeded and reported the region readable. -/
def reportOf (proc : Process) (address : Nat) : Option (Nat × Region) :=
  match proc.virtualQuery address with
  | some region => if region.readable then some (address, region) else none
  | none => none

/-- No read of the list is blind: every read starts at the address of the query that
comes last before it, that query succeeded and reported a readable region, and the
bytes read lie inside the region reported.  The first argument is what the last
query so far vouches for. -/
def readsGuarded (proc : Process) : Option (Nat × Region) → List Access → Bool
  | _, [] => true
  | _, Access.query a :: rest => readsGuarded proc (reportOf proc a) rest
  | g, Access.read a size :: rest =>
    (match g with
      | some (asked, region) =>
        decide (asked = a) && decide (region.BaseAddress ≤ a)
          && decide (a + size ≤ region.BaseAddress + region.RegionSize)
      | none => false)
      && readsGuarded proc g rest

/-- Every read of the list starts at the address of the call of `VirtualQuery` that
comes last before it, whatever that call answered.  The first argument is the
address of the last call so far. -/
def readsFollowQuery : Option Nat → List Access → Bool
  | _, [] => true
  | _, Access.query a :: rest => readsFollowQuery (some a) rest
  | g, Access.read a _ :: rest => decide (g = some a) && readsFollowQuery g rest

/-- The addresses of the chain behind offset `k`: the device field, the object it
points to, slot 42 of the table the object points to, and the code that slot points
to. -/
def chainAddresses (mem : Memory) (deviceAddress k : Nat) : List Nat :=
  [wrap (deviceAddress + k),
   load mem (wrap (deviceAddress + k)),
   wrap (load mem (load mem (wrap (deviceAddress + k))) + 42 * ptrSize),
   load mem (wrap (load mem (load mem (wrap (deviceAddress + k))) + 42 * ptrSize))]

/-- Windows SDK constant `MEM_FREE`. -/
def MEM_FREE : Nat := 0x10000

/-- The content an uninitialised `mbi` has when the stack slot still holds the
record of an earlier call that found committed read-write memory. -/
def staleReadable : Nat → Nat → MBI := fun _ _ => ⟨MEM_COMMIT, PAGE_READWRITE⟩

/-- A 32-bit process whose pages `0x1000 .. 0x1FFF` are committed read-write and hold
the device at `0x1000`; the rest of the user range is free, and `VirtualQuery` fails
from `0x7FFF0000` on, above the user range.  The device field at offset `0x4` holds
the value `0xFFFF0000`; every other byte is zero. -/
def kernelPointerProcess : Process :=
  { virtualQuery := fun a =>
      if 0x7FFF0000 ≤ a then none
      else if 0x1000 ≤ a ∧ a < 0x2000 then some ⟨0x1000, 0x1000, MEM_COMMIT, PAGE_READWRITE⟩
      else if a < 0x1000 then some ⟨0, 0x1000, MEM_FREE, PAGE_NOACCESS⟩
      else some ⟨0x2000, 0x7FFEE000, MEM_FREE, PAGE_NOACCESS⟩,
    byte := fun a => if a = 0x1006 then 0xFF else if a = 0x1007 then 0xFF else 0 }

/-- A process laid out like `kernelPointerProcess`, in which every query succeeds
below `0x7FFF0000`; the device field at offset `0x4` holds `0x1FFE`, an address two
bytes before the end of the committed region. -/
def straddlingProcess : Process :=
  { virtualQuery := fun a =>
      if 0x7FFF0000 ≤ a then none
      else if 0x1000 ≤ a ∧ a < 0x2000 then some ⟨0x1000, 0x1000, MEM_COMMIT, PAGE_READWRITE⟩
      else if a < 0x1000 then some ⟨0, 0x1000, MEM_FREE, PAGE_NOACCESS⟩
      else some ⟨0x2000, 0x7FFEE000, MEM_FREE, PAGE_NOACCESS⟩,
    byte := fun a => if a = 0x1004 then 0xFE else if a = 0x1005 then 0x1F else 0 }

end IWXMVM.D3D9

/-!
# IWXMVM — cubic spline interpolation (`src/core/src/Utilities/MathUtils.cpp`)

A shallow embedding of `MathUtils::InterpolateCubicSpline` in exact arithmetic:
`float` values are rational numbers.  The function and its parts return `none` when
the C++ function does not come back with a value computed by well-defined steps: the
exception for fewer than two keyframes, an array access outside the first `n` cells,
a read of a cell that was never written, or a division by zero.
-/

namespace IWXMVM.MathUtils

/-- Modelled from the spec: the type `Types::Keyframe`, whose declaration is not among
the sources at hand.  Kept are the two members `InterpolateCubicSpline` reads: the
integer `tick`, and `value.GetByIndex(valueIndex)` as a function of the index. -/
structure Keyframe where
  /-- Member `tick` -/
  tick : Int
  /-- Member function `value.GetByIndex` -/
  value : Nat → ℚ

/-- The constant `MAX_NODES`. -/
def MAX_NODES : Nat := 256

/-- A local `float` array: the content of each cell, `none` for a cell that was never
written. -/
abbrev FloatArray := Nat → Option ℚ

/-- An array of which no cell was written yet. -/
def unwritten : FloatArray := fun _ => none

/-- Read of cell `i` of an array whose first `n` cells are in use. -/
def readAt (n : Nat) (a : FloatArray) (i : Nat) : Option ℚ :=
  if i < n then a i else none

/-- Write of `x` to cell `i` of an array whose first `n` cells are in use. -/
def writeAt (n : Nat) (a : FloatArray) (i : Nat) (x : ℚ) : Option FloatArray :=
  if i < n then some (Function.update a i (some x)) else none

/-- Division, defined when the divisor is not zero. -/
def divide (x y : ℚ) : Option ℚ :=
  if y = 0 then none else some (x / y)

/-- Sequencing of steps: go on with the value of a step that came back with one. -/
def next {α β : Type} (x : Option α) (f : α → Option β) : Option β :=
  match x with
  | none => none
  | some a => f a

/-- The body of the forward loop `for (size_t i = 1; i <= n - 2; i++)` at index `i`:
the arrays `y2` and `u` afterwards. -/
def sweepStep (n : Nat) (ticks values : FloatArray) (i : Nat) (y2 u : FloatArray) :
    Option (FloatArray × FloatArray) :=
  next (readAt n ticks (i - 1)) fun prevTick =>
  next (readAt n values (i - 1)) fun prevValue =>
  next (readAt n ticks i) fun currTick =>
  next (readAt n values i) fun currValue =>
  next (readAt n ticks (i + 1)) fun nextTick =>
  next (readAt n values (i + 1)) fun nextValue =>
  next (divide (currTick - prevTick) (nextTick - prevTick)) fun sig =>
  next (readAt n y2 (i - 1)) fun y2prev =>
  next (divide (sig - 1) (sig * y2prev + 2)) fun y2i =>
  next (writeAt n y2 i y2i) fun y2 =>
  next (divide (nextValue - currValue) (nextTick - currTick)) fun slopeNext =>
  next (divide (currValue - prevValue) (currTick - prevTick)) fun slopePrev =>
  next (writeAt n u i (slopeNext - slopePrev)) fun u =>
  next (readAt n u i) fun ui =>
  next (divide (6 * ui) (nextTick - prevTick)) fun scaled =>
  next (readAt n u (i - 1)) fun uprev =>
  next (divide (scaled - sig * uprev) (sig * y2prev + 2)) fun ui2 =>
  next (writeAt n u i ui2) fun u =>
  some (y2, u)

/-- The forward loop `for (size_t i = 1; i <= n - 2; i++)` from a given `i` on. -/
def sweepFrom (n : Nat) (ticks values : FloatArray) (i : Nat) (y2 u : FloatArray) :
    Option (FloatArray × FloatArray) :=
  if i ≤ n - 2 then
    match sweepStep n ticks values i y2 u with
    | none => none
    | some r => sweepFrom n ticks values (i + 1) r.1 r.2
  else some (y2, u)
termination_by n - 2 + 1 - i
decreasing_by omega

/-- The backward loop `for (int k = n - 2; k >= 0; k--)`; the argument is `k + 1`,
the number of iterations still to run. -/
def backSubstitute (n : Nat) (u : FloatArray) : Nat → FloatArray → Option FloatArray
  | 0, y2 => some y2
  | k + 1, y2 =>
    next (readAt n y2 k) fun y2k =>
    next (readAt n y2 (k + 1)) fun y2next =>
    next (readAt n u k) fun uk =>
    next (writeAt n y2 k (y2k * y2next + uk)) fun y2 =>
    backSubstitute n u k y2

/-- The statements between the copy loop and the forward loop: `y2[0]` and `u[0]`. -/
def firstCells (n : Nat) (ticks values : FloatArray) : Option (FloatArray × FloatArray) :=
  next (writeAt n unwritten 0 (-(1 / 2))) fun y2 =>
  next (readAt n ticks 0) fun tick0 =>
  next (readAt n ticks 1) fun tick1 =>
  next (readAt n values 0) fun value0 =>
  next (readAt n values 1) fun value1 =>
  next (divide 3 (tick1 - tick0)) fun scale0 =>
  next (divide (value1 - value0) (tick1 - tick0)) fun slope0 =>
  next (writeAt n unwritten 0 (scale0 * slope0)) fun u =>
  some (y2, u)

/-- The statements between the forward and the backward loop: `qn`, `un` and
`y2[n - 1]`. -/
def lastCell (n : Nat) (ticks values y2 u : FloatArray) : Option FloatArray :=
  next (readAt n ticks (n - 1)) fun tickLast =>
  next (readAt n ticks (n - 2)) fun tickPrev =>
  next (readAt n values (n - 1)) fun valueLast =>
  next (readAt n values (n - 2)) fun valuePrev =>
  next (divide 3 (tickLast - tickPrev)) fun scaleN =>
  next (divide (valueLast - valuePrev) (tickLast - tickPrev)) fun slopeN =>
  next (readAt n u (n - 2)) fun uPrev =>
  next (readAt n y2 (n - 2)) fun y2Prev =>
  next (divide (scaleN * (0 - slopeN) - 1 / 2 * uPrev) (1 / 2 * y2Prev + 1)) fun y2Last =>
  writeAt n y2 (n - 1) y2Last

/-- The array `y2` of second derivatives as it stands before the bracket search. -/
def secondDerivatives (n : Nat) (ticks values : FloatArray) : Option FloatArray :=
  next (firstCells n ticks values) fun first =>
  next (sweepFrom n ticks values 1 first.1 first.2) fun swept =>
  next (lastCell n ticks values swept.1 swept.2) fun y2 =>
  backSubstitute n swept.2 (n - 1) y2

/-- The bracket search `while (khi - klo > 1)` from given `klo` and `khi` on: the
final pair. -/
def bracket (n : Nat) (ticks : FloatArray) (tick : ℚ) (klo khi : Nat) : Option (Nat × Nat) :=
  if khi - klo > 1 then
    match readAt n ticks ((khi + klo) >>> 1) with
    | none => none
    | some tk =>
      if tk > tick then bracket n ticks tick klo ((khi + klo) >>> 1)
      else bracket n ticks tick ((khi + klo) >>> 1) khi
  else some (klo, khi)
termination_by khi - klo
decreasing_by
  all_goals simp_wf
  all_goals simp only [Nat.shiftRight_eq_div_pow, pow_one] at *
  all_goals omega

/-- The part of the function after the bracket search: the interpolated value from
the final `klo` and `khi`. -/
def evaluateAt (n : Nat) (ticks values y2 : FloatArray) (tick : ℚ) (klo khi : Nat) :
    Option ℚ :=
  next (readAt n ticks khi) fun tickHi =>
  next (readAt n ticks klo) fun tickLo =>
  next (divide (tickHi - tick) (tickHi - tickLo)) fun a =>
  next (divide (tick - tickLo) (tickHi - tickLo)) fun b =>
  next (readAt n values klo) fun valueLo =>
  next (readAt n values khi) fun valueHi =>
  next (readAt n y2 klo) fun y2Lo =>
  next (readAt n y2 khi) fun y2Hi =>
  some (a * valueLo + b * valueHi
    + ((a * a * a - a) * y2Lo + (b * b * b - b) * y2Hi)
      * ((tickHi - tickLo) * (tickHi - tickLo)) / 6)

/-- The array `ticks` after the copy loop. -/
def ticksOf (keyframes : List Keyframe) : FloatArray :=
  fun i => (keyframes[i]?).map (fun kf => (kf.tick : ℚ))

/-- The array `values` after the copy loop. -/
def valuesOf (keyframes : List Keyframe) (valueIndex : Nat) : FloatArray :=
  fun i => (keyframes[i]?).map (fun kf => kf.value valueIndex)

/-- The function `MathUtils::InterpolateCubicSpline(keyframes, valueIndex, tick)`. -/
def InterpolateCubicSpline (keyframes : List Keyframe) (valueIndex : Nat) (tick : ℚ) :
    Option ℚ :=
  let n := keyframes.length
  if n < 2 then none
  else if n > MAX_NODES then (keyframes.getLast?).map (fun kf => kf.value valueIndex)
  else
    match secondDerivatives n (ticksOf keyframes) (valuesOf keyframes valueIndex) with
    | none => none
    | some y2 =>
      match bracket n (ticksOf keyframes) tick 0 (n - 1) with
      | none => none
      | some k =>
        evaluateAt n (ticksOf keyframes) (valuesOf keyframes valueIndex) y2 tick k.1 k.2

/-- The ticks of the keyframes are strictly increasing. -/
def ticksIncreasing (keyframes : List Keyframe) : Prop :=
  (keyframes.map Keyframe.tick).Pairwise (fun a b => a < b)

/-- The tick of keyframe `i` as a rational number (zero past the end of the list). -/
def tickAt (keyframes : List Keyframe) (i : Nat) : ℚ :=
  (ticksOf keyframes i).getD 0

/-- The value of keyframe `i` at `valueIndex` (zero past the end of the list). -/
def valueAt (keyframes : List Keyframe) (valueIndex i : Nat) : ℚ :=
  (valuesOf keyframes valueIndex i).getD 0

/-- Three keyframes with one value each. -/
def sampleKeyframes : List Keyframe :=
  [⟨0, fun _ => 1⟩, ⟨10, fun _ => 5⟩, ⟨30, fun _ => 2⟩]

end IWXMVM.MathUtils

/-! # Theorems -/

namespace IWXMVM.D3D9


/-! ## Lemmas on call lists -/

theorem callsAfter_release_append (c : Call) (hc : isWillReset c = false)
    (components : List Nat) (r : List Call) :
    callsAfter c (components.map Call.ComponentRelease ++ r) = callsAfter c r := by
  induction components with
  | nil => rfl
  | cons x xs ih =>
    have hne : Call.ComponentRelease x ≠ c := by
      intro h; subst h; simp [isWillReset] at hc
    simp [callsAfter, hne, ih]

theorem callsBefore_release_append (c : Call) (hc : isWillReset c = false)
    (components : List Nat) (r : List Call) :
    callsBefore c (components.map Call.ComponentRelease ++ r)
      = components.map Call.ComponentRelease ++ callsBefore c r := by
  induction components with
  | nil => rfl
  | cons x xs ih =>
    have hne : Call.ComponentRelease x ≠ c := by
      intro h; subst h; simp [isWillReset] at hc
    simp [callsBefore, hne, ih]

theorem count_release_map (c : Call) (hc : ∀ x, c ≠ Call.ComponentRelease x)
    (components : List Nat) : (components.map Call.ComponentRelease).count c = 0 := by
  induction components with
  | nil => rfl
  | cons x xs ih =>
    have hne : Call.ComponentRelease x ≠ c := fun h => hc x h.symm
    simp [List.count_cons, ih, hne]

theorem countP_ready_release_map (components : List Nat) :
    (components.map Call.ComponentRelease).countP isDeviceReady = 0 := by
  induction components with
  | nil => rfl
  | cons x xs ih => simp [List.countP_cons, isDeviceReady]

/-! ## The reset hook -/

/-- Claim C1, as the code has it: whatever the forwarded `Reset` returns, failure
codes included, the calls `Reset_Hook` makes after the forwarded call are the
re-creation of the GUI device objects, once, followed by the renderer's
`Initialize`, once, exactly when the UI manager reports itself initialised; the
result code is handed back unchanged and no global is written. -/
theorem Reset_Hook_after_forward (components : List Nat) (hr : HRESULT)
    (uiInitialized : Bool) (s : State) :
    callsAfter Call.RealReset (Reset_Hook components hr uiInitialized s).calls
        = Call.CreateDeviceObjects :: (if uiInitialized then [Call.GraphicsInitialize] else [])
      ∧ (Reset_Hook components hr uiInitialized s).ret = hr
      ∧ (Reset_Hook components hr uiInitialized s).state = s := by
  refine ⟨?_, rfl, rfl⟩
  simp only [Reset_Hook, List.append_assoc]
  rw [callsAfter_release_append Call.RealReset rfl]
  simp [callsAfter]

/-- Claim C1 fails as stated: with a failing forwarded `Reset` (device lost) and an
initialised UI manager, both device-ready notifications are still issued after the
forwarded call. -/
theorem Reset_Hook_failure_still_notifies :
    FAILED D3DERR_DEVICELOST = true
      ∧ callsAfter Call.RealReset (Reset_Hook [7] D3DERR_DEVICELOST true State.initial).calls
          = [Call.CreateDeviceObjects, Call.GraphicsInitialize]
      ∧ (callsAfter Call.RealReset
          (Reset_Hook [7] D3DERR_DEVICELOST true State.initial).calls).countP isDeviceReady = 2
      ∧ (callsAfter Call.RealReset
          (Reset_Hook [7] D3DERR_DEVICELOST false State.initial).calls).countP isDeviceReady = 1 := by
  decide

/-- Claim C2, as the code has it: the calls of `Reset_Hook` split around the single
forwarded `Reset`.  Before it come one `Release` per UI component, in order, then
the renderer's `Uninitialize` and the invalidation of the GUI device objects, each
once, and no device-ready notification; after it come the re-creation of the GUI
device objects, once, and the renderer's `Initialize`, once when the UI manager is
initialised and not at all when it is not, and no will-reset release. -/
theorem Reset_Hook_sequence (components : List Nat) (hr : HRESULT)
    (uiInitialized : Bool) (s : State) :
    (Reset_Hook components hr uiInitialized s).calls
        = callsBefore Call.RealReset (Reset_Hook components hr uiInitialized s).calls
          ++ Call.RealReset
            :: callsAfter Call.RealReset (Reset_Hook components hr uiInitialized s).calls
      ∧ (Reset_Hook components hr uiInitialized s).calls.count Call.RealReset = 1
      ∧ callsBefore Call.RealReset (Reset_Hook components hr uiInitialized s).calls
          = components.map Call.ComponentRelease
            ++ [Call.GraphicsUninitialize, Call.InvalidateDeviceObjects]
      ∧ (callsBefore Call.RealReset
          (Reset_Hook components hr uiInitialized s).calls).countP isDeviceReady = 0
      ∧ (callsAfter Call.RealReset
          (Reset_Hook components hr uiInitialized s).calls).count Call.CreateDeviceObjects = 1
      ∧ (callsAfter Call.RealReset
          (Reset_Hook components hr uiInitialized s).calls).count Call.GraphicsInitialize
          = (if uiInitialized then 1 else 0)
      ∧ (callsAfter Call.RealReset
          (Reset_Hook components hr uiInitialized s).calls).countP isWillReset = 0 := by
  have hb : callsBefore Call.RealReset (Reset_Hook components hr uiInitialized s).calls
      = components.map Call.ComponentRelease
        ++ [Call.GraphicsUninitialize, Call.InvalidateDeviceObjects] := by
    simp only [Reset_Hook, List.append_assoc]
    rw [callsBefore_release_append Call.RealReset rfl]
    simp [callsBefore]
  have ha : callsAfter Call.RealReset (Reset_Hook components hr uiInitialized s).calls
      = Call.CreateDeviceObjects
        :: (if uiInitialized then [Call.GraphicsInitialize] else []) := by
    simp only [Reset_Hook, List.append_assoc]
    rw [callsAfter_release_append Call.RealReset rfl]
    simp [callsAfter]
  rw [hb, ha]
  refine ⟨?_, ?_, rfl, ?_, ?_, ?_, ?_⟩
  · simp [Reset_Hook]
  · simp only [Reset_Hook, List.append_assoc, List.count_append]
    rw [count_release_map _ (by intro x h; cases h)]
    cases uiInitialized <;> decide
  · rw [List.countP_append, countP_ready_release_map]; decide
  · cases uiInitialized <;> decide
  · cases uiInitialized <;> decide
  · cases uiInitialized <;> decide

/-- Claim C2 fails as stated: after a successful forwarded `Reset`, with the UI
manager not initialised, the renderer's `Initialize` is not called at all. -/
theorem Reset_Hook_success_without_renderer_init :
    (Reset_Hook [1, 2] D3D_OK false State.initial).ret = D3D_OK
      ∧ (Reset_Hook [1, 2] D3D_OK false State.initial).calls
          = [Call.ComponentRelease 1, Call.ComponentRelease 2, Call.GraphicsUninitialize,
             Call.InvalidateDeviceObjects, Call.RealReset, Call.CreateDeviceObjects]
      ∧ (callsAfter Call.RealReset
          (Reset_Hook [1, 2] D3D_OK false State.initial).calls).count Call.GraphicsInitialize = 0 := by
  decide

/-! ## The create hook -/

/-- Claim C3: `CreateDevice_Hook` forwards to the real `CreateDevice` exactly once
and returns its result code unchanged.  When that code is `D3D_OK` the returned
device becomes the global device and the calls after the forwarded one are exactly
`UIManager::Initialize` with the returned device and the window handle of the
presentation parameters, then `GraphicsManager::Initialize` (so each is made once
and no other device-created notification exists).  With any other code the globals are
left as they were and no device-created notification is made. -/
theorem CreateDevice_Hook_forwards_once (real : CreateResult) (s : State) :
    (CreateDevice_Hook real s).calls.count Call.RealCreateDevice = 1
      ∧ (CreateDevice_Hook real s).ret = real.hr
      ∧ (callsBefore Call.RealCreateDevice (CreateDevice_Hook real s).calls).countP
          isDeviceCreated = 0
      ∧ (if real.hr = D3D_OK then
          (CreateDevice_Hook real s).state = { s with device := real.returnedDevice }
            ∧ callsAfter Call.RealCreateDevice (CreateDevice_Hook real s).calls
                = [Call.UIInitialize real.returnedDevice (some real.hDeviceWindow),
                   Call.GraphicsInitialize]
            ∧ (CreateDevice_Hook real s).calls.count
                (Call.UIInitialize real.returnedDevice (some real.hDeviceWindow)) = 1
            ∧ (CreateDevice_Hook real s).calls.count Call.GraphicsInitialize = 1
            ∧ (CreateDevice_Hook real s).calls.countP isDeviceCreated = 2
        else
          (CreateDevice_Hook real s).state = s
            ∧ (CreateDevice_Hook real s).calls.countP isDeviceCreated = 0) := by
  by_cases h : real.hr = D3D_OK
  · simp [CreateDevice_Hook, h, callsBefore, callsAfter, isDeviceCreated, List.count_cons]
  · simp [CreateDevice_Hook, h, callsBefore, isDeviceCreated, List.count_cons]

/-! ## The end-of-frame hooks -/

/-- Claim C4, as the code has it.  With a foreign chain detected and a caller that
is not an overlay, and from any value of `calledByEndscene`: the primary hook never
runs the GUI frame and raises the flag; the recovered hook firing next finds the
flag raised, lowers it and does not run the GUI frame either, so a frame made of
these two firings runs the GUI frame zero times; the GUI frame is run, once, by a
further firing of the recovered hook in that frame.  When the recovered hook fires
before the primary one, the GUI frame is run once if the flag was lowered on entry
and not at all if it was raised. -/
theorem frame_gate_with_foreign_chain (moduleOf : Nat → List Char) (s : State)
    (returnAddress : Nat) (uiInitialized inDemo : Bool) (pDevice : Nat)
    (hr1 hr2 hr3 : HRESULT)
    (hchain : s.reshadeEndSceneAddress.isSome = true)
    (hcaller : (CheckForOverlays moduleOf returnAddress s.returnAddresses).2 = false) :
    (runFrame moduleOf
        [Firing.primary returnAddress uiInitialized inDemo pDevice hr1,
         Firing.recovered hr2] s).2.count Call.RunImGuiFrame = 0
      ∧ (runFrame moduleOf
          [Firing.primary returnAddress uiInitialized inDemo pDevice hr1,
           Firing.recovered hr2] s).1.calledByEndscene = false
      ∧ (runFrame moduleOf
          [Firing.primary returnAddress uiInitialized inDemo pDevice hr1,
           Firing.recovered hr2, Firing.recovered hr3] s).2.count Call.RunImGuiFrame = 1
      ∧ (runFrame moduleOf
          [Firing.recovered hr2,
           Firing.primary returnAddress uiInitialized inDemo pDevice hr1]
          s).2.count Call.RunImGuiFrame = (if s.calledByEndscene then 0 else 1) := by
  obtain ⟨dev, chain, flag, cache⟩ := s
  simp only at hchain hcaller
  cases chain with
  | none => simp at hchain
  | some addr =>
    cases uiInitialized <;> cases inDemo <;> cases flag <;>
      simp [runFrame, fire, EndScene_Hook, ReshadeOriginalEndScene_Hook, hcaller,
        List.count_cons]

/-- Witness for `frame_gate_with_foreign_chain`: a game caller, chain detected,
flag raised on entry. -/
theorem frame_gate_with_foreign_chain_witness :
    (runFrame gameModule
        [Firing.primary 0x401000 true false 1 0, Firing.recovered 0]
        (chainState true)).2.count Call.RunImGuiFrame = 0
      ∧ (runFrame gameModule
          [Firing.primary 0x401000 true false 1 0, Firing.recovered 0]
          (chainState true)).1.calledByEndscene = false
      ∧ (runFrame gameModule
          [Firing.primary 0x401000 true false 1 0, Firing.recovered 0, Firing.recovered 0]
          (chainState true)).2.count Call.RunImGuiFrame = 1
      ∧ (runFrame gameModule
          [Firing.recovered 0, Firing.primary 0x401000 true false 1 0]
          (chainState true)).2.count Call.RunImGuiFrame
          = (if (chainState true).calledByEndscene then 0 else 1) :=
  frame_gate_with_foreign_chain gameModule (chainState true) 0x401000 true false 1 0 0 0
    (by decide) (by decide)

/-- Claim C4 fails as stated: a foreign chain is detected, the primary hook fires
from a caller that is not an overlay and the recovered hook fires after it, and the
GUI frame is not run at all in that frame, whichever value `calledByEndscene` had. -/
theorem both_hooks_fire_without_gui_frame :
    (chainState false).reshadeEndSceneAddress.isSome = true
      ∧ (CheckForOverlays gameModule 0x401000 (chainState false).returnAddresses).2 = false
      ∧ (runFrame gameModule
          [Firing.primary 0x401000 true false 1 0, Firing.recovered 0]
          (chainState false)).2 = [Call.RealEndScene, Call.RealReshadeOriginalEndScene]
      ∧ (runFrame gameModule
          [Firing.primary 0x401000 true false 1 0, Firing.recovered 0]
          (chainState false)).2.count Call.RunImGuiFrame = 0
      ∧ (runFrame gameModule
          [Firing.primary 0x401000 true false 1 0, Firing.recovered 0]
          (chainState true)).2.count Call.RunImGuiFrame = 0 := by
  decide

/-- Claim C5, as the code has it: `EndScene_Hook` always forwards once to the real
end-of-frame function and returns its result code.  A caller classified as a known
overlay gets nothing else: no rendering, and `calledByEndscene` is not touched.  For
any other caller the GUI frame is run once exactly when no foreign chain was
detected, the renderer draws once exactly when a demo is playing, and
`calledByEndscene` is raised; the value the flag had on entry plays no part. -/
theorem EndScene_Hook_gate (moduleOf : Nat → List Char) (returnAddress : Nat)
    (uiInitialized inDemo : Bool) (pDevice : Nat) (hr : HRESULT) (s : State) :
    (EndScene_Hook moduleOf returnAddress uiInitialized inDemo pDevice hr s).calls.count
        Call.RealEndScene = 1
      ∧ (EndScene_Hook moduleOf returnAddress uiInitialized inDemo pDevice hr s).ret = hr
      ∧ (if (CheckForOverlays moduleOf returnAddress s.returnAddresses).2 = true then
          (EndScene_Hook moduleOf returnAddress uiInitialized inDemo pDevice hr s).calls
              = [Call.RealEndScene]
            ∧ (EndScene_Hook moduleOf returnAddress uiInitialized inDemo pDevice hr
                s).state.calledByEndscene = s.calledByEndscene
        else
          (EndScene_Hook moduleOf returnAddress uiInitialized inDemo pDevice hr
              s).calls.count Call.RunImGuiFrame
              = (if s.reshadeEndSceneAddress.isSome then 0 else 1)
            ∧ (EndScene_Hook moduleOf returnAddress uiInitialized inDemo pDevice hr
                s).calls.count Call.GraphicsRender = (if inDemo then 1 else 0)
            ∧ (EndScene_Hook moduleOf returnAddress uiInitialized inDemo pDevice hr
                s).state.calledByEndscene = true) := by
  obtain ⟨dev, chain, flag, cache⟩ := s
  by_cases h : (CheckForOverlays moduleOf returnAddress cache).2 = true
  · simp [EndScene_Hook, h]
  · have h2 : (CheckForOverlays moduleOf returnAddress cache).2 = false := by
      simpa using h
    cases uiInitialized <;> cases inDemo <;> cases chain <;>
      simp [EndScene_Hook, h2, List.count_cons]

/-- Claim C5 fails as stated: a caller inside the Steam overlay is classified as a
known overlay, nothing was rendered before, and the hook renders nothing; a caller
inside the game is not classified as an overlay and the hook runs the GUI frame. -/
theorem EndScene_Hook_overlay_caller_skips :
    (CheckForOverlays steamModule 0x62001000 State.initial.returnAddresses).2 = true
      ∧ State.initial.calledByEndscene = false
      ∧ (EndScene_Hook steamModule 0x62001000 true true 1 0 State.initial).calls
          = [Call.RealEndScene]
      ∧ (CheckForOverlays gameModule 0x401000 State.initial.returnAddresses).2 = false
      ∧ (EndScene_Hook gameModule 0x401000 true true 1 0 State.initial).calls
          = [Call.GraphicsRender, Call.RunImGuiFrame, Call.RealEndScene] := by
  decide

/-! ## Order of the notifications -/

theorem occursBefore_release_append (a b : Call) (ha : ∀ x, a ≠ Call.ComponentRelease x)
    (components : List Nat) (r : List Call) :
    occursBefore a b (components.map Call.ComponentRelease ++ r) = occursBefore a b r := by
  induction components with
  | nil => rfl
  | cons x xs ih =>
    have hne : Call.ComponentRelease x ≠ a := fun h => ha x h.symm
    simp [occursBefore, hne, ih]

theorem occursBefore_of_mem_release (c : Nat) (b : Call) (components : List Nat)
    (r : List Call) (hc : c ∈ components) (hb : b ∈ r) :
    occursBefore (Call.ComponentRelease c) b
      (components.map Call.ComponentRelease ++ r) = true := by
  induction components with
  | nil => simp at hc
  | cons x xs ih =>
    rcases List.mem_cons.mp hc with h | h
    · subst h
      simp [occursBefore, hb]
    · simp [occursBefore, ih h]

/-- Claim C6, as the code has it.  In the create hook the renderer is uninitialised
before the UI layer is shut down, and on success the UI layer is initialised before
the renderer.  In the reset hook every UI component is released before the renderer
is uninitialised, which in turn precedes the invalidation of the GUI device objects;
after the forwarded call the GUI device objects are re-created before the renderer
is initialised (which happens when the UI manager is initialised).  None of these
pairs ever occurs in the opposite order. -/
theorem hooks_notification_order (real : CreateResult) (s : State)
    (components : List Nat) (hr : HRESULT) (uiInitialized : Bool) :
    (CreateDevice_Hook real s).calls
        = [Call.GraphicsUninitialize, Call.UIShutdownImGui, Call.RealCreateDevice]
          ++ (if real.hr = D3D_OK then
                [Call.UIInitialize real.returnedDevice (some real.hDeviceWindow),
                 Call.GraphicsInitialize]
              else [])
      ∧ occursBefore Call.GraphicsUninitialize Call.UIShutdownImGui
          (CreateDevice_Hook real s).calls = true
      ∧ occursBefore Call.UIShutdownImGui Call.GraphicsUninitialize
          (CreateDevice_Hook real s).calls = false
      ∧ occursBefore (Call.UIInitialize real.returnedDevice (some real.hDeviceWindow))
          Call.GraphicsInitialize (CreateDevice_Hook real s).calls
          = decide (real.hr = D3D_OK)
      ∧ occursBefore Call.GraphicsInitialize
          (Call.UIInitialize real.returnedDevice (some real.hDeviceWindow))
          (CreateDevice_Hook real s).calls = false
      ∧ (∀ c, c ∈ components →
          occursBefore (Call.ComponentRelease c) Call.GraphicsUninitialize
              (Reset_Hook components hr uiInitialized s).calls = true
            ∧ occursBefore Call.GraphicsUninitialize (Call.ComponentRelease c)
              (Reset_Hook components hr uiInitialized s).calls = false)
      ∧ occursBefore Call.GraphicsUninitialize Call.InvalidateDeviceObjects
          (Reset_Hook components hr uiInitialized s).calls = true
      ∧ occursBefore Call.InvalidateDeviceObjects Call.GraphicsUninitialize
          (Reset_Hook components hr uiInitialized s).calls = false
      ∧ occursBefore Call.CreateDeviceObjects Call.GraphicsInitialize
          (Reset_Hook components hr uiInitialized s).calls = uiInitialized
      ∧ occursBefore Call.GraphicsInitialize Call.CreateDeviceObjects
          (Reset_Hook components hr uiInitialized s).calls = false := by
  refine ⟨?_, ?_, ?_, ?_, ?_, ?_, ?_, ?_, ?_, ?_⟩
  · by_cases h : real.hr = D3D_OK <;> simp [CreateDevice_Hook, h]
  · by_cases h : real.hr = D3D_OK <;> simp [CreateDevice_Hook, h, occursBefore]
  · by_cases h : real.hr = D3D_OK <;> simp [CreateDevice_Hook, h, occursBefore]
  · by_cases h : real.hr = D3D_OK <;> simp [CreateDevice_Hook, h, occursBefore]
  · by_cases h : real.hr = D3D_OK <;> simp [CreateDevice_Hook, h, occursBefore]
  · intro c hc
    constructor
    · simp only [Reset_Hook, List.append_assoc]
      exact occursBefore_of_mem_release c _ components _ hc (by simp)
    · simp only [Reset_Hook, List.append_assoc]
      rw [occursBefore_release_append _ _ (by intro x h; cases h)]
      cases uiInitialized <;> simp [occursBefore]
  · simp only [Reset_Hook, List.append_assoc]
    rw [occursBefore_release_append _ _ (by intro x h; cases h)]
    cases uiInitialized <;> simp [occursBefore]
  · simp only [Reset_Hook, List.append_assoc]
    rw [occursBefore_release_append _ _ (by intro x h; cases h)]
    cases uiInitialized <;> simp [occursBefore]
  · simp only [Reset_Hook, List.append_assoc]
    rw [occursBefore_release_append _ _ (by intro x h; cases h)]
    cases uiInitialized <;> simp [occursBefore]
  · simp only [Reset_Hook, List.append_assoc]
    rw [occursBefore_release_append _ _ (by intro x h; cases h)]
    cases uiInitialized <;> simp [occursBefore]

/-- Claim C6 fails as stated: in a successful create call the renderer is
uninitialised before the UI layer is shut down and initialised after the UI layer,
and in a reset call the renderer is initialised after the GUI device objects are
re-created. -/
theorem create_hook_renderer_first_on_teardown :
    (CreateDevice_Hook ⟨D3D_OK, 0x1000, 0x20⟩ State.initial).calls
        = [Call.GraphicsUninitialize, Call.UIShutdownImGui, Call.RealCreateDevice,
           Call.UIInitialize 0x1000 (some 0x20), Call.GraphicsInitialize]
      ∧ occursBefore Call.UIShutdownImGui Call.GraphicsUninitialize
          (CreateDevice_Hook ⟨D3D_OK, 0x1000, 0x20⟩ State.initial).calls = false
      ∧ occursBefore Call.GraphicsInitialize (Call.UIInitialize 0x1000 (some 0x20))
          (CreateDevice_Hook ⟨D3D_OK, 0x1000, 0x20⟩ State.initial).calls = false
      ∧ (Reset_Hook [7] D3D_OK true State.initial).calls
          = [Call.ComponentRelease 7, Call.GraphicsUninitialize,
             Call.InvalidateDeviceObjects, Call.RealReset, Call.CreateDeviceObjects,
             Call.GraphicsInitialize]
      ∧ occursBefore Call.GraphicsInitialize Call.CreateDeviceObjects
          (Reset_Hook [7] D3D_OK true State.initial).calls = false := by
  decide

/-! ## The classifier: stability of verdicts -/

theorem checkLoop_true_cached (moduleOf : Nat → List Char) (a : Nat) (ha : a ≠ 0) :
    ∀ (names : List (List Char)) (slots : List Nat),
      (checkLoop moduleOf a names slots).2 = true →
        cached a names (checkLoop moduleOf a names slots).1 = true := by
  intro names
  induction names with
  | nil => intro slots h; simp [checkLoop] at h
  | cons name names ih =>
    intro slots h
    cases slots with
    | nil => simp [checkLoop] at h
    | cons slot slots =>
      by_cases h0 : slot = 0
      · by_cases hm : (find (moduleOf a) name).isSome = true
        · simp [checkLoop, h0, hm, cached]
        · simp only [checkLoop, h0, hm] at h ⊢
          simp only [if_true, if_false, Bool.false_eq_true] at h ⊢
          simp [cached, ih slots h]
      · by_cases hs : slot = a
        · subst hs
          simp [checkLoop, h0, cached]
        · simp only [checkLoop, h0, hs, if_false] at h ⊢
          simp [cached, ih slots h]

theorem cached_verdict (moduleOf : Nat → List Char) (a : Nat) (ha : a ≠ 0) :
    ∀ (names : List (List Char)) (slots : List Nat),
      cached a names slots = true → (checkLoop moduleOf a names slots).2 = true := by
  intro names
  induction names with
  | nil => intro slots h; simp [cached] at h
  | cons name names ih =>
    intro slots h
    cases slots with
    | nil => simp [cached] at h
    | cons slot slots =>
      by_cases h0 : slot = 0
      · have hne : ¬ slot = a := fun e => ha (e ▸ h0)
        have ht : cached a names slots = true := by simpa [cached, hne] using h
        by_cases hm : (find (moduleOf a) name).isSome = true
        · simp [checkLoop, h0, hm]
        · simp only [checkLoop, h0, hm, if_true, if_false, Bool.false_eq_true]
          exact ih slots (by simpa [h0] using ht)
      · by_cases hs : slot = a
        · subst hs
          simp [checkLoop, h0]
        · have ht : cached a names slots = true := by simpa [cached, hs] using h
          simp only [checkLoop, h0, hs, if_false]
          exact ih slots ht

theorem cached_persist (moduleOf : Nat → List Char) (a b : Nat) (ha : a ≠ 0) :
    ∀ (names : List (List Char)) (slots : List Nat),
      cached a names slots = true →
        cached a names (checkLoop moduleOf b names slots).1 = true := by
  intro names
  induction names with
  | nil => intro slots h; simp [cached] at h
  | cons name names ih =>
    intro slots h
    cases slots with
    | nil => simp [cached] at h
    | cons slot slots =>
      by_cases h0 : slot = 0
      · have hne : ¬ slot = a := fun e => ha (e ▸ h0)
        have ht : cached a names slots = true := by simpa [cached, hne] using h
        by_cases hm : (find (moduleOf b) name).isSome = true
        · simp [checkLoop, h0, hm, cached, ht]
        · simp only [checkLoop, h0, hm, if_true, if_false, Bool.false_eq_true]
          simp [cached, ih slots ht]
      · by_cases hs : slot = b
        · subst hs
          simpa [checkLoop, h0] using h
        · simp only [checkLoop, h0, hs, if_false]
          by_cases hsa : slot = a
          · simp [cached, hsa]
          · have ht : cached a names slots = true := by simpa [cached, hsa] using h
            simp [cached, ih slots ht]

theorem verdict_false_persist (moduleOf : Nat → List Char) (a b : Nat) :
    ∀ (names : List (List Char)) (slots : List Nat),
      (checkLoop moduleOf a names slots).2 = false →
        (checkLoop moduleOf a names (checkLoop moduleOf b names slots).1).2 = false := by
  intro names
  induction names with
  | nil => intro slots _; simp [checkLoop]
  | cons name names ih =>
    intro slots h
    cases slots with
    | nil => simp [checkLoop]
    | cons slot slots =>
      by_cases h0 : slot = 0
      · by_cases hma : (find (moduleOf a) name).isSome = true
        · simp [checkLoop, h0, hma] at h
        · simp only [checkLoop, h0, hma, if_true, if_false, Bool.false_eq_true] at h
          by_cases hmb : (find (moduleOf b) name).isSome = true
          · simp only [checkLoop, h0, hmb, if_true]
            by_cases hb0 : b = 0
            · simp only [hb0, checkLoop, hma, if_true, if_false, Bool.false_eq_true]
              exact h
            · by_cases hba : b = a
              · rw [hba] at hmb; exact absurd hmb hma
              · simp only [checkLoop, hb0, hba, if_false]
                exact h
          · simp only [checkLoop, h0, hmb, hma, if_true, if_false, Bool.false_eq_true]
            exact ih slots h
      · by_cases hsa : slot = a
        · subst hsa
          simp [checkLoop, h0] at h
        · simp only [checkLoop, h0, hsa, if_false] at h
          by_cases hsb : slot = b
          · subst hsb
            simp only [checkLoop, h0, hsa, if_true, if_false]
            exact h
          · simp only [checkLoop, h0, hsb, hsa, if_false]
            exact ih slots h

theorem classifyAll_true_of_cached (moduleOf : Nat → List Char) (a : Nat) (ha : a ≠ 0) :
    ∀ (rest cache : List Nat) (j : Nat),
      cached a overlayNames cache = true → rest[j]? = some a →
        (classifyAll moduleOf rest cache).2[j]? = some true := by
  intro rest
  induction rest with
  | nil => intro cache j _ hj; simp at hj
  | cons x rest ih =>
    intro cache j hc hj
    cases j with
    | zero =>
      have hx : x = a := by simpa using hj
      subst hx
      simp only [classifyAll, List.getElem?_cons_zero, Option.some.injEq]
      exact cached_verdict moduleOf x ha overlayNames cache hc
    | succ j =>
      simp only [classifyAll, List.getElem?_cons_succ] at hj ⊢
      exact ih _ j (cached_persist moduleOf a x ha overlayNames cache hc) hj

theorem classifyAll_false_of_false (moduleOf : Nat → List Char) (a : Nat) :
    ∀ (rest cache : List Nat) (j : Nat),
      (CheckForOverlays moduleOf a cache).2 = false → rest[j]? = some a →
        (classifyAll moduleOf rest cache).2[j]? = some false := by
  intro rest
  induction rest with
  | nil => intro cache j _ hj; simp at hj
  | cons x rest ih =>
    intro cache j hc hj
    cases j with
    | zero =>
      have hx : x = a := by simpa using hj
      subst hx
      simp only [classifyAll, List.getElem?_cons_zero, Option.some.injEq]
      exact hc
    | succ j =>
      simp only [classifyAll, List.getElem?_cons_succ] at hj ⊢
      exact ih _ j (verdict_false_persist moduleOf a x overlayNames cache hc) hj

theorem classifyAll_stable_from (moduleOf : Nat → List Char) (a : Nat) (ha : a ≠ 0) :
    ∀ (addrs cache : List Nat) (i j : Nat), i < j →
      addrs[i]? = some a → addrs[j]? = some a →
        ∃ v, (classifyAll moduleOf addrs cache).2[i]? = some v
          ∧ (classifyAll moduleOf addrs cache).2[j]? = some v := by
  intro addrs
  induction addrs with
  | nil => intro cache i j _ hi; simp at hi
  | cons x rest ih =>
    intro cache i j hij hi hj
    cases j with
    | zero => omega
    | succ j =>
      cases i with
      | zero =>
        have hx : x = a := by simpa using hi
        subst hx
        simp only [List.getElem?_cons_succ] at hj
        simp only [classifyAll, List.getElem?_cons_zero, List.getElem?_cons_succ]
        cases hv : (CheckForOverlays moduleOf x cache).2 with
        | true =>
          refine ⟨true, rfl, ?_⟩
          exact classifyAll_true_of_cached moduleOf x ha rest _ j
            (checkLoop_true_cached moduleOf x ha overlayNames cache hv) hj
        | false =>
          refine ⟨false, rfl, ?_⟩
          exact classifyAll_false_of_false moduleOf x rest _ j
            (verdict_false_persist moduleOf x x overlayNames cache hv) hj
      | succ i =>
        simp only [List.getElem?_cons_succ] at hi hj
        simp only [classifyAll, List.getElem?_cons_succ]
        exact ih _ i j (by omega) hi hj

theorem classifyAll_length (moduleOf : Nat → List Char) :
    ∀ (addrs cache : List Nat), (classifyAll moduleOf addrs cache).2.length = addrs.length := by
  intro addrs
  induction addrs with
  | nil => intro cache; rfl
  | cons x rest ih => intro cache; simp [classifyAll, ih]

/-- Claim C7, as the code has it: with module resolution a fixed function of the
address, in every finite sequence of classifier calls starting from the empty cache,
any two calls made with the same return address other than zero return the same
verdict, whatever was classified in between. -/
theorem CheckForOverlays_verdict_stable (moduleOf : Nat → List Char) (addrs : List Nat)
    (i j a : Nat) (hi : addrs[i]? = some a) (hj : addrs[j]? = some a) (ha : a ≠ 0) :
    ∃ v, (classifyAll moduleOf addrs emptyCache).2[i]? = some v
      ∧ (classifyAll moduleOf addrs emptyCache).2[j]? = some v := by
  rcases Nat.lt_trichotomy i j with h | h | h
  · exact classifyAll_stable_from moduleOf a ha addrs emptyCache i j h hi hj
  · subst h
    have hlen : i < (classifyAll moduleOf addrs emptyCache).2.length := by
      rw [classifyAll_length]
      by_contra hge
      rw [List.getElem?_eq_none (by omega)] at hi
      cases hi
    exact ⟨(classifyAll moduleOf addrs emptyCache).2[i], by simp [hlen], by simp [hlen]⟩
  · obtain ⟨v, h1, h2⟩ := classifyAll_stable_from moduleOf a ha addrs emptyCache j i h hj hi
    exact ⟨v, h2, h1⟩

/-- Witness for `CheckForOverlays_verdict_stable`: the first and third call are both
made with the address `5`. -/
theorem CheckForOverlays_verdict_stable_witness :
    ∃ v, (classifyAll steamModule [5, 9, 5] emptyCache).2[0]? = some v
      ∧ (classifyAll steamModule [5, 9, 5] emptyCache).2[2]? = some v :=
  CheckForOverlays_verdict_stable steamModule [5, 9, 5] 0 2 5 (by decide) (by decide)
    (by decide)

/-- Claim C7 fails as stated at the return address zero, the value that marks an
empty slot: the first call with it is answered "known overlay", the slot stays empty,
another address takes the slot, and the next call with zero is answered
"unknown". -/
theorem CheckForOverlays_revises_at_zero :
    (classifyAll steamModule [0, 5, 0] emptyCache).2 = [true, true, false]
      ∧ (classifyAll steamModule [0, 5, 0] emptyCache).2[0]?
          ≠ (classifyAll steamModule [0, 5, 0] emptyCache).2[2]? := by
  decide

/-! ## The classifier: what a verdict means -/

theorem startsWith_iff (hay needle : List Char) :
    startsWith hay needle = true ↔ needle <+: hay := by
  induction needle generalizing hay with
  | nil => simp [startsWith]
  | cons n ns ih =>
    cases hay with
    | nil => simp [startsWith]
    | cons h hs =>
      simp only [startsWith, Bool.and_eq_true, beq_iff_eq, ih, List.cons_prefix_cons]
      constructor
      · rintro ⟨h1, h2⟩; exact ⟨h1.symm, h2⟩
      · rintro ⟨h1, h2⟩; exact ⟨h1.symm, h2⟩

theorem find_isSome_iff (hay needle : List Char) :
    (find hay needle).isSome = true ↔ needle <:+: hay := by
  induction hay with
  | nil =>
    cases needle with
    | nil => simp [find, startsWith]
    | cons n ns => simp [find, startsWith]
  | cons h hs ih =>
    rw [List.infix_cons_iff, ← ih, ← startsWith_iff]
    by_cases hp : startsWith (h :: hs) needle = true
    · simp [find, hp]
    · simp [find, hp]

theorem cacheSound_checkLoop (moduleOf : Nat → List Char) (b : Nat) :
    ∀ (names : List (List Char)) (slots : List Nat),
      cacheSound moduleOf names slots = true →
        cacheSound moduleOf names (checkLoop moduleOf b names slots).1 = true := by
  intro names
  induction names with
  | nil => intro slots _; simp [cacheSound]
  | cons name names ih =>
    intro slots h
    cases slots with
    | nil => simp [cacheSound]
    | cons slot slots =>
      simp only [cacheSound, Bool.and_eq_true, Bool.or_eq_true, decide_eq_true_eq] at h
      obtain ⟨h1, h2⟩ := h
      by_cases h0 : slot = 0
      · by_cases hm : (find (moduleOf b) name).isSome = true
        · simp [checkLoop, h0, hm, cacheSound, h2]
        · simp only [checkLoop, h0, hm, if_true, if_false, Bool.false_eq_true]
          simp [cacheSound, ih slots h2]
      · have hf : (find (moduleOf slot) name).isSome = true := by
          rcases h1 with h1 | h1
          · exact absurd h1 h0
          · exact h1
        by_cases hs : slot = b
        · subst hs
          simp [checkLoop, h0, cacheSound, hf, h2]
        · simp only [checkLoop, h0, hs, if_false]
          simp [cacheSound, hf, ih slots h2]

theorem cacheSound_classifyAll (moduleOf : Nat → List Char) :
    ∀ (history cache : List Nat), cacheSound moduleOf overlayNames cache = true →
      cacheSound moduleOf overlayNames (classifyAll moduleOf history cache).1 = true := by
  intro history
  induction history with
  | nil => intro cache h; exact h
  | cons x rest ih =>
    intro cache h
    simp only [classifyAll]
    exact ih _ (cacheSound_checkLoop moduleOf x overlayNames cache h)

theorem verdict_sound (moduleOf : Nat → List Char) (a : Nat) :
    ∀ (names : List (List Char)) (slots : List Nat),
      cacheSound moduleOf names slots = true →
        (checkLoop moduleOf a names slots).2 = true →
          ∃ name, name ∈ names ∧ name <:+: moduleOf a := by
  intro names
  induction names with
  | nil => intro slots _ h; simp [checkLoop] at h
  | cons name names ih =>
    intro slots hs h
    cases slots with
    | nil => simp [checkLoop] at h
    | cons slot slots =>
      simp only [cacheSound, Bool.and_eq_true, Bool.or_eq_true, decide_eq_true_eq] at hs
      obtain ⟨h1, h2⟩ := hs
      by_cases h0 : slot = 0
      · by_cases hm : (find (moduleOf a) name).isSome = true
        · exact ⟨name, by simp, (find_isSome_iff _ _).mp hm⟩
        · simp only [checkLoop, h0, hm, if_true, if_false, Bool.false_eq_true] at h
          obtain ⟨n, hn, hf⟩ := ih slots h2 h
          exact ⟨n, List.mem_cons_of_mem _ hn, hf⟩
      · by_cases hsa : slot = a
        · subst hsa
          rcases h1 with h1 | h1
          · exact absurd h1 h0
          · exact ⟨name, by simp, (find_isSome_iff _ _).mp h1⟩
        · simp only [checkLoop, h0, hsa, if_false] at h
          obtain ⟨n, hn, hf⟩ := ih slots h2 h
          exact ⟨n, List.mem_cons_of_mem _ hn, hf⟩

theorem verdict_iff_slot (moduleOf : Nat → List Char) (a : Nat) :
    ∀ (names : List (List Char)) (slots : List Nat),
      (checkLoop moduleOf a names slots).2 = true ↔
        ∃ (i : Nat) (name : List Char) (slot : Nat),
          names[i]? = some name ∧ slots[i]? = some slot
            ∧ ((slot = 0 ∧ name <:+: moduleOf a) ∨ (slot ≠ 0 ∧ slot = a)) := by
  intro names
  induction names with
  | nil => intro slots; simp [checkLoop]
  | cons name names ih =>
    intro slots
    cases slots with
    | nil => simp [checkLoop]
    | cons slot slots =>
      have step : (∃ (i : Nat) (name' : List Char) (slot' : Nat),
            (name :: names)[i]? = some name'
            ∧ (slot :: slots)[i]? = some slot'
            ∧ ((slot' = 0 ∧ name' <:+: moduleOf a) ∨ (slot' ≠ 0 ∧ slot' = a)))
          ↔ (((slot = 0 ∧ name <:+: moduleOf a) ∨ (slot ≠ 0 ∧ slot = a))
            ∨ ∃ (i : Nat) (name' : List Char) (slot' : Nat),
              names[i]? = some name' ∧ slots[i]? = some slot'
              ∧ ((slot' = 0 ∧ name' <:+: moduleOf a) ∨ (slot' ≠ 0 ∧ slot' = a))) := by
        constructor
        · rintro ⟨i, n, sl, hn, hsl, hc⟩
          cases i with
          | zero =>
            simp only [List.getElem?_cons_zero, Option.some.injEq] at hn hsl
            subst hn; subst hsl
            exact Or.inl hc
          | succ i =>
            simp only [List.getElem?_cons_succ] at hn hsl
            exact Or.inr ⟨i, n, sl, hn, hsl, hc⟩
        · rintro (hc | ⟨i, n, sl, hn, hsl, hc⟩)
          · exact ⟨0, name, slot, by simp, by simp, hc⟩
          · exact ⟨i + 1, n, sl, by simpa using hn, by simpa using hsl, hc⟩
      rw [step, ← ih slots, ← find_isSome_iff]
      by_cases h0 : slot = 0
      · by_cases hm : (find (moduleOf a) name).isSome = true
        · simp [checkLoop, h0, hm]
        · simp [checkLoop, h0, hm]
      · by_cases hsa : slot = a
        · subst hsa
          simp [checkLoop, h0]
        · simp [checkLoop, h0, hsa]

/-- Claim C8, as the code has it.  After any history of classifier calls from the
empty cache, the verdict for a return address is "known overlay" exactly when, for
some deny-list index, either the slot of that index is still empty and the module
path contains that entry (in the entry's own letter case), or the slot holds this
very address.  Such a verdict always means that the module path contains a deny-list
entry; the converse depends on the slots that earlier calls have taken. -/
theorem CheckForOverlays_verdict_by_slot (moduleOf : Nat → List Char)
    (history : List Nat) (a : Nat) :
    ((CheckForOverlays moduleOf a (classifyAll moduleOf history emptyCache).1).2 = true ↔
        ∃ (i : Nat) (name : List Char) (slot : Nat), overlayNames[i]? = some name
          ∧ (classifyAll moduleOf history emptyCache).1[i]? = some slot
          ∧ ((slot = 0 ∧ name <:+: moduleOf a) ∨ (slot ≠ 0 ∧ slot = a)))
      ∧ ((CheckForOverlays moduleOf a (classifyAll moduleOf history emptyCache).1).2 = true →
          ∃ name, name ∈ overlayNames ∧ name <:+: moduleOf a) := by
  refine ⟨verdict_iff_slot moduleOf a overlayNames _, ?_⟩
  intro h
  exact verdict_sound moduleOf a overlayNames _
    (cacheSound_classifyAll moduleOf history emptyCache (by simp [cacheSound, emptyCache, overlayNames])) h

/-- Claim C8 fails as stated: two different return addresses inside the Steam
overlay module are classified one after the other; the first gets "known overlay"
and takes the slot, the second gets "unknown" although its module path contains
the deny-list entry. -/
theorem second_overlay_address_unknown :
    (find (steamModule 1) "gameoverlay".toList).isSome = true
      ∧ (find (steamModule 2) "gameoverlay".toList).isSome = true
      ∧ (classifyAll steamModule [1, 2] emptyCache).2 = [true, false]
      ∧ (CheckForOverlays steamModule 2 emptyCache).2 = true := by
  decide

/-! ## The classifier: letter case -/

theorem checkLoop_two_empty (moduleOf : Nat → List Char) (a : Nat)
    (n1 n2 : List Char) :
    (checkLoop moduleOf a [n1, n2] [0, 0]).2 = true ↔
      (n1 <:+: moduleOf a ∨ n2 <:+: moduleOf a) := by
  rw [← find_isSome_iff, ← find_isSome_iff]
  by_cases h1 : (find (moduleOf a) n1).isSome = true
  · simp [checkLoop, h1]
  · by_cases h2 : (find (moduleOf a) n2).isSome = true
    · simp [checkLoop, h1, h2]
    · simp [checkLoop, h1, h2]

/-- Claim C9, as the code has it: the comparison is exact, character by character.
On first sight of an address, from the empty cache, the verdict is "known overlay"
exactly when the owning module's path contains `gameoverlay` or `discord` as
written in the deny-list, in lower case. -/
theorem CheckForOverlays_first_sight (moduleOf : Nat → List Char) (a : Nat) :
    (CheckForOverlays moduleOf a emptyCache).2 = true ↔
      ("gameoverlay".toList <:+: moduleOf a ∨ "discord".toList <:+: moduleOf a) := by
  exact checkLoop_two_empty moduleOf a _ _

/-- Claim C9 fails as stated: paths that contain a deny-list entry in another letter
case (they do contain it once lowered) are answered "unknown" on first sight. -/
theorem mixed_case_path_unknown :
    "gameoverlay".toList <:+: (steamModuleMixedCase 0x62001000).map Char.toLower
      ∧ (CheckForOverlays steamModuleMixedCase 0x62001000 emptyCache).2 = false
      ∧ "discord".toList <:+: (discordModuleMixedCase 0x63001000).map Char.toLower
      ∧ (CheckForOverlays discordModuleMixedCase 0x63001000 emptyCache).2 = false := by
  refine ⟨?_, by decide, ?_, by decide⟩
  · exact (find_isSome_iff _ _).mp (by decide)
  · exact (find_isSome_iff _ _).mp (by decide)

/-! ## The foreign-chain probe: first match wins -/

theorem SafeRead_eq (mem : Memory) (address : Nat) :
    SafeRead mem address = if isReadable mem address then load mem address else 0 := by
  unfold SafeRead isReadable
  by_cases h1 : (mem.query address).State &&& MEM_COMMIT = 0
  · simp [h1]
  · by_cases h2 : (mem.query address).Protect &&& (PAGE_GUARD ||| PAGE_NOACCESS) = 0
    · by_cases h3 : (mem.query address).Protect &&& (PAGE_READONLY ||| PAGE_READWRITE |||
          PAGE_WRITECOPY ||| PAGE_EXECUTE_READ ||| PAGE_EXECUTE_READWRITE |||
          PAGE_EXECUTE_WRITECOPY) = 0
      · simp [h1, h2, h3]
      · simp [h1, h2, h3]
    · simp [h1, h2]

theorem mem_probeWindow (i : Nat) (hi : i < 7) : 4 + 4 * i ∈ probeWindow := by
  interval_cases i <;> simp [probeWindow]

theorem SafeReadTraced_eq (proc : Process) (uninit : MBI) (address : Nat) :
    SafeReadTraced proc uninit address
      = if isReadable (proc.image uninit) address then
          (load proc.bytes address, [Access.query address, Access.read address ptrSize])
        else (0, [Access.query address]) := by
  unfold SafeReadTraced isReadable
  simp only [Process.image]
  by_cases h1 : (mbiAfterQuery proc uninit address).State &&& MEM_COMMIT = 0
  · simp [h1]
  · by_cases h2 : (mbiAfterQuery proc uninit address).Protect
        &&& (PAGE_GUARD ||| PAGE_NOACCESS) = 0
    · by_cases h3 : (mbiAfterQuery proc uninit address).Protect
          &&& (PAGE_READONLY ||| PAGE_READWRITE |||
          PAGE_WRITECOPY ||| PAGE_EXECUTE_READ ||| PAGE_EXECUTE_READWRITE |||
          PAGE_EXECUTE_WRITECOPY) = 0
      · simp [h1, h2, h3]
      · simp [h1, h2, h3]
    · simp [h1, h2]

theorem load_image (proc : Process) (uninit : MBI) (address : Nat) :
    load (proc.image uninit) address = load proc.bytes address := rfl

theorem memcmp_image (proc : Process) (uninit : MBI) :
    ∀ (bytes : List Nat) (p : Nat),
      memcmp (proc.image uninit) p bytes = memcmp proc.bytes p bytes := by
  intro bytes
  induction bytes with
  | nil => intro p; rfl
  | cons b bs ih =>
    intro p
    simp only [memcmp, ih]
    rfl

theorem SafeReadTraced_value (proc : Process) (uninit : MBI) (address : Nat) :
    (SafeReadTraced proc uninit address).1 = SafeRead (proc.image uninit) address := by
  rw [SafeReadTraced_eq, SafeRead_eq, load_image]
  by_cases h : isReadable (proc.image uninit) address = true <;> simp [h]

theorem probeAtTraced_value (proc : Process) (uninit : MBI) (deviceAddress offset : Nat) :
    (probeAtTraced proc (fun _ => uninit) deviceAddress offset).1
      = probeAt (proc.image uninit) deviceAddress offset := by
  unfold probeAtTraced probeAt
  simp only [SafeReadTraced_value, memcmp_image]
  split_ifs <;> rfl

theorem probeFromTraced_value (proc : Process) (uninit : MBI) (deviceAddress : Nat) :
    ∀ (d offset : Nat), offset + 4 * d = 0x20 →
      (probeFromTraced proc (fun _ _ => uninit) deviceAddress offset).1
        = probeFrom (proc.image uninit) deviceAddress offset := by
  intro d
  induction d with
  | zero =>
    intro offset ho
    have : offset = 0x20 := by omega
    subst this
    rw [probeFromTraced, probeFrom]
    simp
  | succ d ih =>
    intro offset ho
    have hlt : offset < 0x20 := by omega
    rw [probeFromTraced, probeFrom]
    simp only [hlt, if_true]
    rw [← probeAtTraced_value]
    rcases hp : probeAtTraced proc (fun _ => uninit) deviceAddress offset with ⟨r, acc⟩
    cases r with
    | none => simpa using ih (offset + 4) (by omega)
    | some e => simp

theorem readsFollowQuery_append (l2 : List Access)
    (h2 : ∀ g, readsFollowQuery g l2 = true) :
    ∀ (l1 : List Access) (g : Option Nat), readsFollowQuery g l1 = true →
      readsFollowQuery g (l1 ++ l2) = true := by
  intro l1
  induction l1 with
  | nil => intro g _; exact h2 g
  | cons x xs ih =>
    intro g h
    cases x with
    | query a =>
      simp only [List.cons_append, readsFollowQuery] at h ⊢
      exact ih _ h
    | read a n =>
      simp only [List.cons_append, readsFollowQuery, Bool.and_eq_true] at h ⊢
      exact ⟨h.1, ih _ h.2⟩

theorem SafeReadTraced_followQuery (proc : Process) (uninit : MBI) (address : Nat)
    (g : Option Nat) :
    readsFollowQuery g (SafeReadTraced proc uninit address).2 = true := by
  rw [SafeReadTraced_eq]
  by_cases h : isReadable (proc.image uninit) address = true <;> simp [h, readsFollowQuery]

theorem SafeReadTraced_nonzero (proc : Process) (uninit : MBI) (address : Nat)
    (h : (SafeReadTraced proc uninit address).1 ≠ 0) :
    isReadable (proc.image uninit) address = true ∧ (SafeReadTraced proc uninit address).1 = load proc.bytes address := by
  rw [SafeReadTraced_eq] at h ⊢
  by_cases hr : isReadable (proc.image uninit) address = true
  · simp [hr]
  · simp [hr] at h

theorem SafeReadTraced_then_read (proc : Process) (uninit : MBI) (address size : Nat)
    (g : Option Nat)
    (h : (SafeReadTraced proc uninit address).1 ≠ 0) :
    readsFollowQuery g ((SafeReadTraced proc uninit address).2 ++ [Access.read address size])
      = true := by
  have hr := (SafeReadTraced_nonzero proc uninit address h).1
  rw [SafeReadTraced_eq]
  simp [hr, readsFollowQuery]

theorem SafeReadTraced_address (proc : Process) (uninit : MBI) (address : Nat) :
    ∀ a, a ∈ (SafeReadTraced proc uninit address).2 → a.address = address := by
  intro a ha
  rw [SafeReadTraced_eq] at ha
  by_cases hr : isReadable (proc.image uninit) address = true
  · simp only [hr, if_true, List.mem_cons, List.mem_singleton, List.not_mem_nil,
      or_false] at ha
    rcases ha with rfl | rfl <;> rfl
  · simp only [hr, if_false, List.mem_singleton, Bool.false_eq_true] at ha
    subst ha
    rfl

theorem probeAtTraced_followQuery (proc : Process) (uninit : Nat → MBI)
    (deviceAddress offset : Nat) (g : Option Nat) :
    readsFollowQuery g (probeAtTraced proc uninit deviceAddress offset).2 = true := by
  have g1 := SafeReadTraced_followQuery proc (uninit 0) (wrap (deviceAddress + offset))
  have g2 := SafeReadTraced_followQuery proc (uninit 1)
    (SafeReadTraced proc (uninit 0) (wrap (deviceAddress + offset))).1
  have g3 := SafeReadTraced_followQuery proc (uninit 2)
    (wrap ((SafeReadTraced proc (uninit 1)
      (SafeReadTraced proc (uninit 0) (wrap (deviceAddress + offset))).1).1 + 42 * ptrSize))
  have g4 := SafeReadTraced_followQuery proc (uninit 3)
    (SafeReadTraced proc (uninit 2) (wrap ((SafeReadTraced proc (uninit 1)
      (SafeReadTraced proc (uninit 0) (wrap (deviceAddress + offset))).1).1
        + 42 * ptrSize))).1
  unfold probeAtTraced
  simp only
  split_ifs with h1 h2 h3 h4 h5
  · exact g1 g
  · exact readsFollowQuery_append _ g2 _ g (g1 g)
  · exact readsFollowQuery_append _ g3 _ g (readsFollowQuery_append _ g2 _ g (g1 g))
  · exact readsFollowQuery_append _ g4 _ g
      (readsFollowQuery_append _ g3 _ g (readsFollowQuery_append _ g2 _ g (g1 g)))
  · rw [List.append_assoc]
    exact readsFollowQuery_append _
      (fun g' => SafeReadTraced_then_read proc (uninit 3) _ _ g' h4) _ g
      (readsFollowQuery_append _ g3 _ g (readsFollowQuery_append _ g2 _ g (g1 g)))
  · rw [List.append_assoc]
    exact readsFollowQuery_append _
      (fun g' => SafeReadTraced_then_read proc (uninit 3) _ _ g' h4) _ g
      (readsFollowQuery_append _ g3 _ g (readsFollowQuery_append _ g2 _ g (g1 g)))

theorem probeAtTraced_addresses (proc : Process) (uninit : Nat → MBI)
    (deviceAddress offset : Nat) :
    ∀ a, a ∈ (probeAtTraced proc uninit deviceAddress offset).2 →
      a.address ∈ chainAddresses proc.bytes deviceAddress offset := by
  intro a ha
  have a1 := SafeReadTraced_address proc (uninit 0) (wrap (deviceAddress + offset)) a
  have a2 := SafeReadTraced_address proc (uninit 1)
    (SafeReadTraced proc (uninit 0) (wrap (deviceAddress + offset))).1 a
  have a3 := SafeReadTraced_address proc (uninit 2)
    (wrap ((SafeReadTraced proc (uninit 1)
      (SafeReadTraced proc (uninit 0) (wrap (deviceAddress + offset))).1).1
        + 42 * ptrSize)) a
  have a4 := SafeReadTraced_address proc (uninit 3)
    (SafeReadTraced proc (uninit 2) (wrap ((SafeReadTraced proc (uninit 1)
      (SafeReadTraced proc (uninit 0) (wrap (deviceAddress + offset))).1).1
        + 42 * ptrSize))).1 a
  have n1 := SafeReadTraced_nonzero proc (uninit 0) (wrap (deviceAddress + offset))
  have n2 := SafeReadTraced_nonzero proc (uninit 1)
    (SafeReadTraced proc (uninit 0) (wrap (deviceAddress + offset))).1
  have n3 := SafeReadTraced_nonzero proc (uninit 2)
    (wrap ((SafeReadTraced proc (uninit 1)
      (SafeReadTraced proc (uninit 0) (wrap (deviceAddress + offset))).1).1
        + 42 * ptrSize))
  unfold probeAtTraced at ha
  simp only at ha
  unfold chainAddresses
  split_ifs at ha with h1 h2 h3 h4 h5
  · rw [a1 ha]; simp
  · rw [← (n1 h1).2]
    rcases List.mem_append.mp ha with h | h
    · rw [a1 h]; simp
    · rw [a2 h]; simp
  · rw [← (n1 h1).2, ← (n2 h2).2]
    rcases List.mem_append.mp ha with h | h
    · rcases List.mem_append.mp h with h | h
      · rw [a1 h]; simp
      · rw [a2 h]; simp
    · rw [a3 h]; simp
  · rw [← (n1 h1).2, ← (n2 h2).2, ← (n3 h3).2]
    rcases List.mem_append.mp ha with h | h
    · rcases List.mem_append.mp h with h | h
      · rcases List.mem_append.mp h with h | h
        · rw [a1 h]; simp
        · rw [a2 h]; simp
      · rw [a3 h]; simp
    · rw [a4 h]; simp
  · rw [← (n1 h1).2, ← (n2 h2).2, ← (n3 h3).2]
    rcases List.mem_append.mp ha with h | h
    · rcases List.mem_append.mp h with h | h
      · rcases List.mem_append.mp h with h | h
        · rcases List.mem_append.mp h with h | h
          · rw [a1 h]; simp
          · rw [a2 h]; simp
        · rw [a3 h]; simp
      · rw [a4 h]; simp
    · rw [List.mem_singleton.mp h]; simp [Access.address]
  · rw [← (n1 h1).2, ← (n2 h2).2, ← (n3 h3).2]
    rcases List.mem_append.mp ha with h | h
    · rcases List.mem_append.mp h with h | h
      · rcases List.mem_append.mp h with h | h
        · rcases List.mem_append.mp h with h | h
          · rw [a1 h]; simp
          · rw [a2 h]; simp
        · rw [a3 h]; simp
      · rw [a4 h]; simp
    · rw [List.mem_singleton.mp h]; simp [Access.address]

theorem probeFromTraced_followQuery (proc : Process) (uninit : Nat → Nat → MBI)
    (deviceAddress : Nat) :
    ∀ (d offset : Nat), offset + 4 * d = 0x20 → ∀ g,
      readsFollowQuery g (probeFromTraced proc uninit deviceAddress offset).2 = true := by
  intro d
  induction d with
  | zero =>
    intro offset ho g
    have : offset = 0x20 := by omega
    subst this
    rw [probeFromTraced]
    simp [readsFollowQuery]
  | succ d ih =>
    intro offset ho g
    have hlt : offset < 0x20 := by omega
    have hg := probeAtTraced_followQuery proc (uninit offset) deviceAddress offset g
    rw [probeFromTraced]
    simp only [hlt, if_true]
    rcases hp : probeAtTraced proc (uninit offset) deviceAddress offset with ⟨r, acc⟩
    rw [hp] at hg
    cases r with
    | none => exact readsFollowQuery_append _ (ih (offset + 4) (by omega)) acc g hg
    | some e => exact hg

theorem probeFromTraced_addresses (proc : Process) (uninit : Nat → Nat → MBI)
    (deviceAddress : Nat) :
    ∀ (d offset : Nat), offset + 4 * d = 0x20 → 4 ≤ offset →
      ∀ a, a ∈ (probeFromTraced proc uninit deviceAddress offset).2 →
        ∃ k, k ∈ probeWindow ∧ a.address ∈ chainAddresses proc.bytes deviceAddress k := by
  intro d
  induction d with
  | zero =>
    intro offset ho _ a ha
    have : offset = 0x20 := by omega
    subst this
    rw [probeFromTraced] at ha
    simp at ha
  | succ d ih =>
    intro offset ho h4 a ha
    have hlt : offset < 0x20 := by omega
    have hmem : offset ∈ probeWindow := by
      have := mem_probeWindow (6 - d) (by omega)
      have he : 4 + 4 * (6 - d) = offset := by omega
      rwa [he] at this
    have hat := probeAtTraced_addresses proc (uninit offset) deviceAddress offset
    rw [probeFromTraced] at ha
    simp only [hlt, if_true] at ha
    rcases hp : probeAtTraced proc (uninit offset) deviceAddress offset with ⟨r, acc⟩
    rw [hp] at ha hat
    cases r with
    | none =>
      simp only [List.mem_append] at ha
      rcases ha with ha | ha
      · exact ⟨offset, hmem, hat a ha⟩
      · exact ih (offset + 4) (by omega) (by omega) a ha
    | some e => exact ⟨offset, hmem, hat a ha⟩

theorem probeFromTraced_step (proc : Process) (uninit : Nat → Nat → MBI)
    (deviceAddress offset : Nat) (accesses : List Access) (h : offset < 0x20)
    (hp : probeAtTraced proc (uninit offset) deviceAddress offset = (none, accesses)) :
    probeFromTraced proc uninit deviceAddress offset
      = ((probeFromTraced proc uninit deviceAddress (offset + 0x4)).1,
         accesses ++ (probeFromTraced proc uninit deviceAddress (offset + 0x4)).2) := by
  rw [probeFromTraced]
  simp only [h, if_true, hp]

theorem probeFromTraced_end (proc : Process) (uninit : Nat → Nat → MBI)
    (deviceAddress : Nat) : probeFromTraced proc uninit deviceAddress 0x20 = (none, []) := by
  rw [probeFromTraced]
  simp

/-- What holds of the accesses of `CheckPresenceReshade` for every process, every
content of the uninitialised `mbi` and every device address: every read starts at
the address that the call of `VirtualQuery` last before it was made for, whatever
that call answered; and every access is made at `device + k` for an offset `k` of the
probe window (in `uintptr_t` arithmetic) or at an address reached from there through
the pointers stored in memory. -/
theorem CheckPresenceReshade_accesses_shape (proc : Process) (uninit : Nat → Nat → MBI)
    (device : Nat) :
    readsFollowQuery none (CheckPresenceReshadeAccesses proc uninit device) = true
      ∧ (∀ a, a ∈ CheckPresenceReshadeAccesses proc uninit device →
          ∃ k, k ∈ probeWindow ∧ a.address ∈ chainAddresses proc.bytes device k) :=
  ⟨probeFromTraced_followQuery proc uninit device 7 4 rfl none,
   probeFromTraced_addresses proc uninit device 7 4 rfl (by omega)⟩

/-- Claim C11 is broken by the code at two inputs.  In `kernelPointerProcess` the
device field at offset `0x4` holds `0xFFFF0000`; `VirtualQuery` fails for that
address, the three tests run on the uninitialised `mbi`, which still holds a readable
record, and four bytes are read at `0xFFFF0000` with no report at all.  In
`straddlingProcess` the field holds `0x1FFE`; the query reports the region
`0x1000 .. 0x1FFF` readable and the four bytes read at `0x1FFE` end two bytes past
it. -/
theorem CheckPresenceReshade_reads_blindly :
    kernelPointerProcess.virtualQuery 0xFFFF0000 = none
      ∧ CheckPresenceReshadeAccesses kernelPointerProcess staleReadable 0x1000
          = [Access.query 0x1004, Access.read 0x1004 4,
             Access.query 0xFFFF0000, Access.read 0xFFFF0000 4,
             Access.query 0x1008, Access.read 0x1008 4,
             Access.query 0x100C, Access.read 0x100C 4,
             Access.query 0x1010, Access.read 0x1010 4,
             Access.query 0x1014, Access.read 0x1014 4,
             Access.query 0x1018, Access.read 0x1018 4,
             Access.query 0x101C, Access.read 0x101C 4]
      ∧ readsGuarded kernelPointerProcess none
          (CheckPresenceReshadeAccesses kernelPointerProcess staleReadable 0x1000) = false
      ∧ straddlingProcess.virtualQuery 0x1FFE
          = some ⟨0x1000, 0x1000, MEM_COMMIT, PAGE_READWRITE⟩
      ∧ CheckPresenceReshadeAccesses straddlingProcess staleReadable 0x1000
          = [Access.query 0x1004, Access.read 0x1004 4,
             Access.query 0x1FFE, Access.read 0x1FFE 4,
             Access.query 0x1008, Access.read 0x1008 4,
             Access.query 0x100C, Access.read 0x100C 4,
             Access.query 0x1010, Access.read 0x1010 4,
             Access.query 0x1014, Access.read 0x1014 4,
             Access.query 0x1018, Access.read 0x1018 4,
             Access.query 0x101C, Access.read 0x101C 4]
      ∧ readsGuarded straddlingProcess none
          (CheckPresenceReshadeAccesses straddlingProcess staleReadable 0x1000) = false := by
  have k : CheckPresenceReshadeAccesses kernelPointerProcess staleReadable 0x1000
      = [Access.query 0x1004, Access.read 0x1004 4,
         Access.query 0xFFFF0000, Access.read 0xFFFF0000 4,
         Access.query 0x1008, Access.read 0x1008 4,
         Access.query 0x100C, Access.read 0x100C 4,
         Access.query 0x1010, Access.read 0x1010 4,
         Access.query 0x1014, Access.read 0x1014 4,
         Access.query 0x1018, Access.read 0x1018 4,
         Access.query 0x101C, Access.read 0x101C 4] := by
    unfold CheckPresenceReshadeAccesses
    rw [
      probeFromTraced_step kernelPointerProcess staleReadable 0x1000 0x4
        [Access.query 0x1004, Access.read 0x1004 4,
          Access.query 0xFFFF0000, Access.read 0xFFFF0000 4]
        (by decide) (by decide),
      probeFromTraced_step kernelPointerProcess staleReadable 0x1000 0x8
        [Access.query 0x1008, Access.read 0x1008 4]
        (by decide) (by decide),
      probeFromTraced_step kernelPointerProcess staleReadable 0x1000 0xC
        [Access.query 0x100C, Access.read 0x100C 4]
        (by decide) (by decide),
      probeFromTraced_step kernelPointerProcess staleReadable 0x1000 0x10
        [Access.query 0x1010, Access.read 0x1010 4]
        (by decide) (by decide),
      probeFromTraced_step kernelPointerProcess staleReadable 0x1000 0x14
        [Access.query 0x1014, Access.read 0x1014 4]
        (by decide) (by decide),
      probeFromTraced_step kernelPointerProcess staleReadable 0x1000 0x18
        [Access.query 0x1018, Access.read 0x1018 4]
        (by decide) (by decide),
      probeFromTraced_step kernelPointerProcess staleReadable 0x1000 0x1C
        [Access.query 0x101C, Access.read 0x101C 4]
        (by decide) (by decide),
      probeFromTraced_end]
    rfl
  have s : CheckPresenceReshadeAccesses straddlingProcess staleReadable 0x1000
      = [Access.query 0x1004, Access.read 0x1004 4,
         Access.query 0x1FFE, Access.read 0x1FFE 4,
         Access.query 0x1008, Access.read 0x1008 4,
         Access.query 0x100C, Access.read 0x100C 4,
         Access.query 0x1010, Access.read 0x1010 4,
         Access.query 0x1014, Access.read 0x1014 4,
         Access.query 0x1018, Access.read 0x1018 4,
         Access.query 0x101C, Access.read 0x101C 4] := by
    unfold CheckPresenceReshadeAccesses
    rw [
      probeFromTraced_step straddlingProcess staleReadable 0x1000 0x4
        [Access.query 0x1004, Access.read 0x1004 4,
          Access.query 0x1FFE, Access.read 0x1FFE 4]
        (by decide) (by decide),
      probeFromTraced_step straddlingProcess staleReadable 0x1000 0x8
        [Access.query 0x1008, Access.read 0x1008 4]
        (by decide) (by decide),
      probeFromTraced_step straddlingProcess staleReadable 0x1000 0xC
        [Access.query 0x100C, Access.read 0x100C 4]
        (by decide) (by decide),
      probeFromTraced_step straddlingProcess staleReadable 0x1000 0x10
        [Access.query 0x1010, Access.read 0x1010 4]
        (by decide) (by decide),
      probeFromTraced_step straddlingProcess staleReadable 0x1000 0x14
        [Access.query 0x1014, Access.read 0x1014 4]
        (by decide) (by decide),
      probeFromTraced_step straddlingProcess staleReadable 0x1000 0x18
        [Access.query 0x1018, Access.read 0x1018 4]
        (by decide) (by decide),
      probeFromTraced_step straddlingProcess staleReadable 0x1000 0x1C
        [Access.query 0x101C, Access.read 0x101C 4]
        (by decide) (by decide),
      probeFromTraced_end]
    rfl
  refine ⟨by decide, k, ?_, by decide, s, ?_⟩
  · rw [k]; decide
  · rw [s]; decide

end IWXMVM.D3D9

namespace IWXMVM.MathUtils

/-! ## Cubic spline: steps that come back with a value -/

theorem next_some {α β : Type} (a : α) (f : α → Option β) : next (some a) f = f a := rfl

theorem readAt_eq (n : Nat) (a : FloatArray) (i : Nat) (x : ℚ) (hi : i < n)
    (h : a i = some x) : readAt n a i = some x := by
  simp [readAt, hi, h]

theorem writeAt_eq (n : Nat) (a : FloatArray) (i : Nat) (x : ℚ) (hi : i < n) :
    writeAt n a i x = some (Function.update a i (some x)) := by
  simp [writeAt, hi]

theorem divide_eq (x y : ℚ) (hy : y ≠ 0) : divide x y = some (x / y) := by
  simp [divide, hy]

theorem sweepStep_ok (n : Nat) (ticks values : FloatArray) (t v : Nat → ℚ)
    (hT : ∀ i, i < n → ticks i = some (t i)) (hV : ∀ i, i < n → values i = some (v i))
    (hmono : ∀ i j, i < j → j < n → t i < t j)
    (i : Nat) (y2 u : FloatArray) (h1 : 1 ≤ i) (h2 : i + 1 < n) (yp up : ℚ)
    (hy : y2 (i - 1) = some yp) (hu : u (i - 1) = some up) (hlo : -1 < yp) :
    ∃ yi ui, sweepStep n ticks values i y2 u
        = some (Function.update y2 i (some yi), Function.update u i (some ui))
      ∧ -1 < yi ∧ yi ≤ 0 := by
  have hp : t (i - 1) < t i := hmono (i - 1) i (by omega) (by omega)
  have hq : t i < t (i + 1) := hmono i (i + 1) (by omega) h2
  have d1 : t (i + 1) - t (i - 1) ≠ 0 := by linarith
  have d2 : t (i + 1) - t i ≠ 0 := by linarith
  have d3 : t i - t (i - 1) ≠ 0 := by linarith
  have hs0 : 0 < (t i - t (i - 1)) / (t (i + 1) - t (i - 1)) :=
    div_pos (by linarith) (by linarith)
  have hs1 : (t i - t (i - 1)) / (t (i + 1) - t (i - 1)) < 1 := by
    rw [div_lt_one (by linarith)]; linarith
  have hpp : 1 < (t i - t (i - 1)) / (t (i + 1) - t (i - 1)) * yp + 2 := by nlinarith
  have d4 : (t i - t (i - 1)) / (t (i + 1) - t (i - 1)) * yp + 2 ≠ 0 := by linarith
  have hne : i - 1 ≠ i := by omega
  refine ⟨((t i - t (i - 1)) / (t (i + 1) - t (i - 1)) - 1)
      / ((t i - t (i - 1)) / (t (i + 1) - t (i - 1)) * yp + 2),
    (6 * ((v (i + 1) - v i) / (t (i + 1) - t i) - (v i - v (i - 1)) / (t i - t (i - 1)))
        / (t (i + 1) - t (i - 1))
      - (t i - t (i - 1)) / (t (i + 1) - t (i - 1)) * up)
      / ((t i - t (i - 1)) / (t (i + 1) - t (i - 1)) * yp + 2), ?_, ?_, ?_⟩
  · unfold sweepStep
    rw [readAt_eq n ticks (i - 1) _ (by omega) (hT _ (by omega)), next_some,
      readAt_eq n values (i - 1) _ (by omega) (hV _ (by omega)), next_some,
      readAt_eq n ticks i _ (by omega) (hT _ (by omega)), next_some,
      readAt_eq n values i _ (by omega) (hV _ (by omega)), next_some,
      readAt_eq n ticks (i + 1) _ h2 (hT _ h2), next_some,
      readAt_eq n values (i + 1) _ h2 (hV _ h2), next_some,
      divide_eq _ _ d1, next_some,
      readAt_eq n y2 (i - 1) _ (by omega) hy, next_some,
      divide_eq _ _ d4, next_some,
      writeAt_eq n y2 i _ (by omega), next_some,
      divide_eq _ _ d2, next_some,
      divide_eq _ _ d3, next_some,
      writeAt_eq n u i _ (by omega), next_some,
      readAt_eq n _ i _ (by omega) (Function.update_same _ _ _), next_some,
      divide_eq _ _ d1, next_some,
      readAt_eq n _ (i - 1) up (by omega)
        (by rw [Function.update_noteq hne]; exact hu), next_some,
      divide_eq _ _ d4, next_some,
      writeAt_eq n _ i _ (by omega), next_some, Function.update_idem]
  · rw [lt_div_iff₀ (by linarith)]; nlinarith
  · apply div_nonpos_of_nonpos_of_nonneg <;> linarith

theorem sweepFrom_ok (n : Nat) (ticks values : FloatArray) (t v : Nat → ℚ) (hn : 2 ≤ n)
    (hT : ∀ i, i < n → ticks i = some (t i)) (hV : ∀ i, i < n → values i = some (v i))
    (hmono : ∀ i j, i < j → j < n → t i < t j) :
    ∀ (d i : Nat) (y2 u : FloatArray), i + d = n - 1 → 1 ≤ i →
      (∀ j, j < i → (∃ y, y2 j = some y ∧ -1 < y ∧ y ≤ 0) ∧ (∃ x, u j = some x)) →
        ∃ y2' u', sweepFrom n ticks values i y2 u = some (y2', u')
          ∧ ∀ j, j < n - 1 →
              (∃ y, y2' j = some y ∧ -1 < y ∧ y ≤ 0) ∧ (∃ x, u' j = some x) := by
  intro d
  induction d with
  | zero =>
    intro i y2 u hi _ hinv
    have hni : ¬ i ≤ n - 2 := by omega
    refine ⟨y2, u, ?_, ?_⟩
    · rw [sweepFrom]; simp [hni]
    · intro j hj; exact hinv j (by omega)
  | succ d ih =>
    intro i y2 u hi h1 hinv
    have hle : i ≤ n - 2 := by omega
    obtain ⟨⟨yp, hy, hlo, _⟩, ⟨up, hu⟩⟩ := hinv (i - 1) (by omega)
    obtain ⟨yi, ui, hstep, hyi1, hyi2⟩ :=
      sweepStep_ok n ticks values t v hT hV hmono i y2 u h1 (by omega) yp up hy hu hlo
    have hrec := ih (i + 1) (Function.update y2 i (some yi)) (Function.update u i (some ui))
      (by omega) (by omega) (by
        intro j hj
        by_cases hji : j = i
        · subst hji
          exact ⟨⟨yi, by simp, hyi1, hyi2⟩, ⟨ui, by simp⟩⟩
        · rw [Function.update_noteq hji, Function.update_noteq hji]
          exact hinv j (by omega))
    obtain ⟨y2', u', hs, hfin⟩ := hrec
    refine ⟨y2', u', ?_, hfin⟩
    rw [sweepFrom]
    simp only [hle, if_true, hstep]
    exact hs

theorem firstCells_ok (n : Nat) (ticks values : FloatArray) (t v : Nat → ℚ) (hn : 2 ≤ n)
    (hT : ∀ i, i < n → ticks i = some (t i)) (hV : ∀ i, i < n → values i = some (v i))
    (hmono : ∀ i j, i < j → j < n → t i < t j) :
    ∃ y2 u, firstCells n ticks values = some (y2, u)
      ∧ ∀ j, j < 1 → (∃ y, y2 j = some y ∧ -1 < y ∧ y ≤ 0) ∧ (∃ x, u j = some x) := by
  have h01 : t 0 < t 1 := hmono 0 1 (by omega) (by omega)
  have d1 : t 1 - t 0 ≠ 0 := by linarith
  refine ⟨Function.update unwritten 0 (some (-(1 / 2))),
    Function.update unwritten 0 (some (3 / (t 1 - t 0) * ((v 1 - v 0) / (t 1 - t 0)))), ?_, ?_⟩
  · unfold firstCells
    rw [writeAt_eq n _ 0 _ (by omega), next_some,
      readAt_eq n ticks 0 _ (by omega) (hT _ (by omega)), next_some,
      readAt_eq n ticks 1 _ (by omega) (hT _ (by omega)), next_some,
      readAt_eq n values 0 _ (by omega) (hV _ (by omega)), next_some,
      readAt_eq n values 1 _ (by omega) (hV _ (by omega)), next_some,
      divide_eq _ _ d1, next_some, divide_eq _ _ d1, next_some,
      writeAt_eq n _ 0 _ (by omega), next_some]
  · intro j hj
    have : j = 0 := by omega
    subst this
    exact ⟨⟨-(1 / 2), by simp, by norm_num, by norm_num⟩, ⟨_, Function.update_same _ _ _⟩⟩

theorem lastCell_ok (n : Nat) (ticks values : FloatArray) (t v : Nat → ℚ) (hn : 2 ≤ n)
    (hT : ∀ i, i < n → ticks i = some (t i)) (hV : ∀ i, i < n → values i = some (v i))
    (hmono : ∀ i j, i < j → j < n → t i < t j) (y2 u : FloatArray)
    (hinv : ∀ j, j < n - 1 →
      (∃ y, y2 j = some y ∧ -1 < y ∧ y ≤ 0) ∧ (∃ x, u j = some x)) :
    ∃ y2', lastCell n ticks values y2 u = some y2' ∧ ∀ j, j < n → ∃ y, y2' j = some y := by
  obtain ⟨⟨yp, hy, hlo, _⟩, ⟨up, hu⟩⟩ := hinv (n - 2) (by omega)
  have hlt : t (n - 2) < t (n - 1) := hmono (n - 2) (n - 1) (by omega) (by omega)
  have d1 : t (n - 1) - t (n - 2) ≠ 0 := by linarith
  have d2 : 1 / 2 * yp + 1 ≠ 0 := by linarith
  refine ⟨Function.update y2 (n - 1) (some
    ((3 / (t (n - 1) - t (n - 2)) * (0 - (v (n - 1) - v (n - 2)) / (t (n - 1) - t (n - 2)))
      - 1 / 2 * up) / (1 / 2 * yp + 1))), ?_, ?_⟩
  · unfold lastCell
    rw [readAt_eq n ticks (n - 1) _ (by omega) (hT _ (by omega)), next_some,
      readAt_eq n ticks (n - 2) _ (by omega) (hT _ (by omega)), next_some,
      readAt_eq n values (n - 1) _ (by omega) (hV _ (by omega)), next_some,
      readAt_eq n values (n - 2) _ (by omega) (hV _ (by omega)), next_some,
      divide_eq _ _ d1, next_some, divide_eq _ _ d1, next_some,
      readAt_eq n u (n - 2) _ (by omega) hu, next_some,
      readAt_eq n y2 (n - 2) _ (by omega) hy, next_some,
      divide_eq _ _ d2, next_some,
      writeAt_eq n _ (n - 1) _ (by omega)]
  · intro j hj
    by_cases hjl : j = n - 1
    · subst hjl; exact ⟨_, Function.update_same _ _ _⟩
    · rw [Function.update_noteq hjl]
      obtain ⟨⟨y, hyj, _, _⟩, _⟩ := hinv j (by omega)
      exact ⟨y, hyj⟩

theorem backSubstitute_ok (n : Nat) (u : FloatArray)
    (hu : ∀ j, j < n - 1 → ∃ x, u j = some x) :
    ∀ (m : Nat) (y2 : FloatArray), m ≤ n - 1 → 1 ≤ n → (∀ j, j < n → ∃ y, y2 j = some y) →
      ∃ y2', backSubstitute n u m y2 = some y2' ∧ ∀ j, j < n → ∃ y, y2' j = some y := by
  intro m
  induction m with
  | zero => intro y2 _ _ hy; exact ⟨y2, rfl, hy⟩
  | succ k ih =>
    intro y2 hm hn hy
    obtain ⟨a, ha⟩ := hy k (by omega)
    obtain ⟨b, hb⟩ := hy (k + 1) (by omega)
    obtain ⟨c, hc⟩ := hu k (by omega)
    obtain ⟨y2', hr, hd⟩ := ih (Function.update y2 k (some (a * b + c))) (by omega) hn (by
      intro j hj
      by_cases hjk : j = k
      · subst hjk; exact ⟨_, Function.update_same _ _ _⟩
      · rw [Function.update_noteq hjk]; exact hy j hj)
    refine ⟨y2', ?_, hd⟩
    unfold backSubstitute
    rw [readAt_eq n y2 k _ (by omega) ha, next_some,
      readAt_eq n y2 (k + 1) _ (by omega) hb, next_some,
      readAt_eq n u k _ (by omega) hc, next_some,
      writeAt_eq n _ k _ (by omega), next_some]
    exact hr

theorem secondDerivatives_ok (n : Nat) (ticks values : FloatArray) (t v : Nat → ℚ)
    (hn : 2 ≤ n)
    (hT : ∀ i, i < n → ticks i = some (t i)) (hV : ∀ i, i < n → values i = some (v i))
    (hmono : ∀ i j, i < j → j < n → t i < t j) :
    ∃ y2, secondDerivatives n ticks values = some y2 ∧ ∀ j, j < n → ∃ y, y2 j = some y := by
  obtain ⟨y0, u0, h0, hinv0⟩ := firstCells_ok n ticks values t v hn hT hV hmono
  obtain ⟨y1, u1, h1, hinv1⟩ :=
    sweepFrom_ok n ticks values t v hn hT hV hmono (n - 2) 1 y0 u0 (by omega) (by omega) hinv0
  obtain ⟨y3, h3, hd3⟩ := lastCell_ok n ticks values t v hn hT hV hmono y1 u1 hinv1
  obtain ⟨y4, h4, hd4⟩ := backSubstitute_ok n u1 (fun j hj => (hinv1 j hj).2) (n - 1) y3
    (by omega) (by omega) hd3
  refine ⟨y4, ?_, hd4⟩
  unfold secondDerivatives
  rw [h0, next_some, h1, next_some, h3, next_some]
  exact h4

theorem bracket_ok (n : Nat) (ticks : FloatArray) (t : Nat → ℚ) (tick : ℚ)
    (hT : ∀ i, i < n → ticks i = some (t i)) :
    ∀ (d klo khi : Nat), khi - klo ≤ d → klo < khi → khi < n →
      (klo = 0 ∨ t klo ≤ tick) → (khi = n - 1 ∨ tick < t khi) →
        ∃ k, bracket n ticks tick klo khi = some (k, k + 1) ∧ k + 1 < n
          ∧ (k = 0 ∨ t k ≤ tick) ∧ (k + 1 = n - 1 ∨ tick < t (k + 1)) := by
  intro d
  induction d with
  | zero => intro klo khi hd hlt; omega
  | succ d ih =>
    intro klo khi hd hlt hn hlo hhi
    by_cases hgap : khi - klo > 1
    · obtain ⟨k, hk, hk1, hk2⟩ : ∃ k, (khi + klo) >>> 1 = k ∧ klo < k ∧ k < khi := by
        refine ⟨_, rfl, ?_, ?_⟩ <;>
          (simp only [Nat.shiftRight_eq_div_pow, pow_one]; omega)
      have hr : readAt n ticks k = some (t k) :=
        readAt_eq n ticks k _ (by omega) (hT k (by omega))
      rw [bracket]
      simp only [hgap, if_true, hk, hr]
      by_cases hc : t k > tick
      · simp only [hc, if_true]
        exact ih klo k (by omega) hk1 (by omega) hlo (Or.inr hc)
      · simp only [hc, if_false]
        exact ih k khi (by omega) hk2 hn (Or.inr (not_lt.mp hc)) hhi
    · have he : khi = klo + 1 := by omega
      subst he
      refine ⟨klo, ?_, hn, hlo, hhi⟩
      rw [bracket]
      simp [hgap]

theorem evaluateAt_ok (n : Nat) (ticks values y2 : FloatArray) (t v : Nat → ℚ) (tick : ℚ)
    (hT : ∀ i, i < n → ticks i = some (t i)) (hV : ∀ i, i < n → values i = some (v i))
    (hmono : ∀ i j, i < j → j < n → t i < t j) (k : Nat) (hk : k + 1 < n) (ylo yhi : ℚ)
    (hlo : y2 k = some ylo) (hhi : y2 (k + 1) = some yhi) :
    evaluateAt n ticks values y2 tick k (k + 1)
      = some ((t (k + 1) - tick) / (t (k + 1) - t k) * v k
          + (tick - t k) / (t (k + 1) - t k) * v (k + 1)
          + (((t (k + 1) - tick) / (t (k + 1) - t k) * ((t (k + 1) - tick) / (t (k + 1) - t k))
                * ((t (k + 1) - tick) / (t (k + 1) - t k))
              - (t (k + 1) - tick) / (t (k + 1) - t k)) * ylo
            + ((tick - t k) / (t (k + 1) - t k) * ((tick - t k) / (t (k + 1) - t k))
                * ((tick - t k) / (t (k + 1) - t k))
              - (tick - t k) / (t (k + 1) - t k)) * yhi)
            * ((t (k + 1) - t k) * (t (k + 1) - t k)) / 6) := by
  have hlt : t k < t (k + 1) := hmono k (k + 1) (by omega) hk
  have d1 : t (k + 1) - t k ≠ 0 := by linarith
  unfold evaluateAt
  rw [readAt_eq n ticks (k + 1) _ hk (hT _ hk), next_some,
    readAt_eq n ticks k _ (by omega) (hT _ (by omega)), next_some,
    divide_eq _ _ d1, next_some, divide_eq _ _ d1, next_some,
    readAt_eq n values k _ (by omega) (hV _ (by omega)), next_some,
    readAt_eq n values (k + 1) _ hk (hV _ hk), next_some,
    readAt_eq n y2 k _ (by omega) hlo, next_some,
    readAt_eq n y2 (k + 1) _ hk hhi, next_some]

theorem ticksOf_eq (keyframes : List Keyframe) (i : Nat) (hi : i < keyframes.length) :
    ticksOf keyframes i = some (tickAt keyframes i) := by
  simp [tickAt, ticksOf, List.getElem?_eq_getElem hi]

theorem valuesOf_eq (keyframes : List Keyframe) (valueIndex i : Nat)
    (hi : i < keyframes.length) :
    valuesOf keyframes valueIndex i = some (valueAt keyframes valueIndex i) := by
  simp [valueAt, valuesOf, List.getElem?_eq_getElem hi]

theorem tickAt_mono (keyframes : List Keyframe) (hinc : ticksIncreasing keyframes) :
    ∀ i j, i < j → j < keyframes.length → tickAt keyframes i < tickAt keyframes j := by
  intro i j hij hj
  have hi : i < keyframes.length := by omega
  unfold ticksIncreasing at hinc
  rw [List.pairwise_iff_getElem] at hinc
  have h := hinc i j (by simpa using hi) (by simpa using hj) hij
  simp only [List.getElem_map] at h
  simp only [tickAt, ticksOf, List.getElem?_eq_getElem hi, List.getElem?_eq_getElem hj,
    Option.map_some', Option.getD_some]
  exact_mod_cast h

theorem InterpolateCubicSpline_eq (keyframes : List Keyframe) (valueIndex : Nat) (tick : ℚ)
    (hn : 2 ≤ keyframes.length) (hmax : keyframes.length ≤ MAX_NODES)
    (hinc : ticksIncreasing keyframes) :
    ∃ k ylo yhi, bracket keyframes.length (ticksOf keyframes) tick 0 (keyframes.length - 1)
        = some (k, k + 1)
      ∧ k + 1 < keyframes.length
      ∧ (k = 0 ∨ tickAt keyframes k ≤ tick)
      ∧ (k + 1 = keyframes.length - 1 ∨ tick < tickAt keyframes (k + 1))
      ∧ InterpolateCubicSpline keyframes valueIndex tick
        = some ((tickAt keyframes (k + 1) - tick)
              / (tickAt keyframes (k + 1) - tickAt keyframes k) * valueAt keyframes valueIndex k
          + (tick - tickAt keyframes k)
              / (tickAt keyframes (k + 1) - tickAt keyframes k)
              * valueAt keyframes valueIndex (k + 1)
          + (((tickAt keyframes (k + 1) - tick)
                  / (tickAt keyframes (k + 1) - tickAt keyframes k)
                * ((tickAt keyframes (k + 1) - tick)
                  / (tickAt keyframes (k + 1) - tickAt keyframes k))
                * ((tickAt keyframes (k + 1) - tick)
                  / (tickAt keyframes (k + 1) - tickAt keyframes k))
              - (tickAt keyframes (k + 1) - tick)
                  / (tickAt keyframes (k + 1) - tickAt keyframes k)) * ylo
            + ((tick - tickAt keyframes k)
                  / (tickAt keyframes (k + 1) - tickAt keyframes k)
                * ((tick - tickAt keyframes k)
                  / (tickAt keyframes (k + 1) - tickAt keyframes k))
                * ((tick - tickAt keyframes k)
                  / (tickAt keyframes (k + 1) - tickAt keyframes k))
              - (tick - tickAt keyframes k)
                  / (tickAt keyframes (k + 1) - tickAt keyframes k)) * yhi)
            * ((tickAt keyframes (k + 1) - tickAt keyframes k)
              * (tickAt keyframes (k + 1) - tickAt keyframes k)) / 6) := by
  have hT := ticksOf_eq keyframes
  have hV := valuesOf_eq keyframes valueIndex
  have hmono := tickAt_mono keyframes hinc
  obtain ⟨y2, hy2, hdef⟩ := secondDerivatives_ok keyframes.length (ticksOf keyframes)
    (valuesOf keyframes valueIndex) (tickAt keyframes) (valueAt keyframes valueIndex)
    hn hT hV hmono
  obtain ⟨k, hb, hk, hlo, hhi⟩ := bracket_ok keyframes.length (ticksOf keyframes)
    (tickAt keyframes) tick hT (keyframes.length - 1) 0 (keyframes.length - 1)
    (by omega) (by omega) (by omega) (Or.inl rfl) (Or.inl rfl)
  obtain ⟨ylo, hylo⟩ := hdef k (by omega)
  obtain ⟨yhi, hyhi⟩ := hdef (k + 1) hk
  refine ⟨k, ylo, yhi, hb, hk, hlo, hhi, ?_⟩
  have h1 : ¬ keyframes.length < 2 := by omega
  have h2 : ¬ keyframes.length > MAX_NODES := by omega
  unfold InterpolateCubicSpline
  simp only [h1, h2, if_false, hy2, hb]
  exact evaluateAt_ok keyframes.length (ticksOf keyframes) (valuesOf keyframes valueIndex) y2
    (tickAt keyframes) (valueAt keyframes valueIndex) tick hT hV hmono k hk ylo yhi hylo hyhi

/-- Claim C12: in exact arithmetic, for every list of 2 to 256 keyframes with strictly
increasing ticks, every value index and every keyframe of the list,
`InterpolateCubicSpline` at that keyframe's tick returns that keyframe's value; the
bracket search ends with `klo` at the keyframe, or with `khi` at it for the last
keyframe. -/
theorem InterpolateCubicSpline_at_keyframe (keyframes : List Keyframe) (valueIndex i : Nat)
    (kf : Keyframe) (hn : 2 ≤ keyframes.length) (hmax : keyframes.length ≤ MAX_NODES)
    (hinc : ticksIncreasing keyframes) (hi : keyframes[i]? = some kf) :
    InterpolateCubicSpline keyframes valueIndex (kf.tick : ℚ) = some (kf.value valueIndex)
      ∧ bracket keyframes.length (ticksOf keyframes) (kf.tick : ℚ) 0 (keyframes.length - 1)
          = some (if i + 1 = keyframes.length then (i - 1, i) else (i, i + 1)) := by
  have hmono := tickAt_mono keyframes hinc
  have hil : i < keyframes.length := by
    by_contra hge
    rw [List.getElem?_eq_none (by omega)] at hi
    cases hi
  have hti : tickAt keyframes i = (kf.tick : ℚ) := by
    simp [tickAt, ticksOf, hi]
  have hvi : valueAt keyframes valueIndex i = kf.value valueIndex := by
    simp [valueAt, valuesOf, hi]
  obtain ⟨k, ylo, yhi, hb, hk, hlo, hhi, hval⟩ :=
    InterpolateCubicSpline_eq keyframes valueIndex (kf.tick : ℚ) hn hmax hinc
  rw [← hti] at hlo hhi
  have hki : k ≤ i := by
    by_contra hgt
    have := hmono i k (by omega) (by omega)
    rcases hlo with h0 | hle
    · omega
    · linarith
  have hlt : tickAt keyframes k < tickAt keyframes (k + 1) := hmono k (k + 1) (by omega) hk
  have hne : tickAt keyframes (k + 1) - tickAt keyframes k ≠ 0 := by linarith
  by_cases hlast : i + 1 = keyframes.length
  · have hk1 : k + 1 = i := by
      rcases hhi with h | h
      · omega
      · by_contra hne2
        have : k + 1 < i := by omega
        have := hmono (k + 1) i this hil
        linarith
    subst hk1
    refine ⟨?_, ?_⟩
    · rw [hval, ← hvi, ← hti]
      congr 1
      rw [sub_self, zero_div, div_self hne]
      ring
    · rw [hb]; simp [hlast]
  · have hk1 : k = i := by
      have h2 : tickAt keyframes i < tickAt keyframes (k + 1) := by
        rcases hhi with h | h
        · rw [h]; exact hmono i _ (by omega) (by omega)
        · exact h
      by_contra hne2
      have : k + 1 ≤ i := by omega
      rcases Nat.eq_or_lt_of_le this with he | hl
      · rw [he] at h2; exact lt_irrefl _ h2
      · have := hmono (k + 1) i hl hil
        linarith
    subst hk1
    refine ⟨?_, ?_⟩
    · rw [hval, ← hvi, ← hti]
      congr 1
      rw [sub_self, zero_div, div_self hne]
      ring
    · rw [hb]; simp [hlast]

/-- Witness for `InterpolateCubicSpline_at_keyframe`: the middle one of three
keyframes. -/
theorem InterpolateCubicSpline_at_keyframe_witness :
    InterpolateCubicSpline sampleKeyframes 0 ((10 : Int) : ℚ) = some 5
      ∧ bracket sampleKeyframes.length (ticksOf sampleKeyframes) ((10 : Int) : ℚ) 0
          (sampleKeyframes.length - 1)
        = some (if 1 + 1 = sampleKeyframes.length then (1 - 1, 1) else (1, 1 + 1)) :=
  InterpolateCubicSpline_at_keyframe sampleKeyframes 0 1 ⟨10, fun _ => 5⟩ (by decide)
    (by decide) (by unfold ticksIncreasing; decide) rfl

/-- Claim C13: in exact arithmetic, for every list of 2 to 256 keyframes with strictly
increasing ticks, every value index and every query tick, `InterpolateCubicSpline`
comes back with a value, which in this embedding means that every array access used
an index below `n` on a cell already written and every divisor was non-zero.  In
particular the differences of ticks are non-zero; the forward sweep leaves every
`y2[j]`, `j <= n - 2`, with `-1 < y2[j] <= 0`, so that `p = sig * y2[i - 1] + 2` of
iteration `i = j + 1` and the final `qn * y2[n - 2] + 1` are non-zero; and the bracket
search ends with `khi = klo + 1` inside the array, where `h` is non-zero. -/
theorem InterpolateCubicSpline_well_defined (keyframes : List Keyframe)
    (valueIndex : Nat) (tick : ℚ)
    (hn : 2 ≤ keyframes.length) (hmax : keyframes.length ≤ MAX_NODES)
    (hinc : ticksIncreasing keyframes) :
    (∃ r, InterpolateCubicSpline keyframes valueIndex tick = some r)
      ∧ (∀ i j, i < j → j < keyframes.length →
          tickAt keyframes j - tickAt keyframes i ≠ 0)
      ∧ (∃ first swept,
          firstCells keyframes.length (ticksOf keyframes) (valuesOf keyframes valueIndex)
              = some first
            ∧ sweepFrom keyframes.length (ticksOf keyframes)
                (valuesOf keyframes valueIndex) 1 first.1 first.2 = some swept
            ∧ ∀ j, j < keyframes.length - 1 →
                ∃ y, swept.1 j = some y ∧ -1 < y ∧ y ≤ 0
                  ∧ (j + 2 < keyframes.length →
                      (tickAt keyframes (j + 1) - tickAt keyframes j)
                        / (tickAt keyframes (j + 2) - tickAt keyframes j) * y + 2 ≠ 0)
                  ∧ (j + 2 = keyframes.length → 1 / 2 * y + 1 ≠ 0))
      ∧ (∃ klo khi,
          bracket keyframes.length (ticksOf keyframes) tick 0 (keyframes.length - 1)
              = some (klo, khi)
            ∧ khi = klo + 1 ∧ khi < keyframes.length
            ∧ tickAt keyframes khi - tickAt keyframes klo ≠ 0) := by
  have hT := ticksOf_eq keyframes
  have hV := valuesOf_eq keyframes valueIndex
  have hmono := tickAt_mono keyframes hinc
  obtain ⟨k, ylo, yhi, hb, hk, _, _, hval⟩ :=
    InterpolateCubicSpline_eq keyframes valueIndex tick hn hmax hinc
  obtain ⟨y0, u0, h0, hinv0⟩ := firstCells_ok keyframes.length (ticksOf keyframes)
    (valuesOf keyframes valueIndex) (tickAt keyframes) (valueAt keyframes valueIndex)
    hn hT hV hmono
  obtain ⟨y1, u1, h1, hinv1⟩ := sweepFrom_ok keyframes.length (ticksOf keyframes)
    (valuesOf keyframes valueIndex) (tickAt keyframes) (valueAt keyframes valueIndex)
    hn hT hV hmono (keyframes.length - 2) 1 y0 u0 (by omega) (by omega) hinv0
  refine ⟨⟨_, hval⟩, ?_, ⟨(y0, u0), (y1, u1), h0, h1, ?_⟩, ⟨k, k + 1, hb, rfl, hk, ?_⟩⟩
  · intro i j hij hj
    have := hmono i j hij hj
    linarith
  · intro j hj
    obtain ⟨⟨y, hy, hlo, hhi⟩, _⟩ := hinv1 j hj
    refine ⟨y, hy, hlo, hhi, ?_, ?_⟩
    · intro hj2
      have hp : tickAt keyframes j < tickAt keyframes (j + 1) :=
        hmono j (j + 1) (by omega) (by omega)
      have hq : tickAt keyframes (j + 1) < tickAt keyframes (j + 2) :=
        hmono (j + 1) (j + 2) (by omega) hj2
      have hs0 : 0 < (tickAt keyframes (j + 1) - tickAt keyframes j)
          / (tickAt keyframes (j + 2) - tickAt keyframes j) :=
        div_pos (by linarith) (by linarith)
      have hs1 : (tickAt keyframes (j + 1) - tickAt keyframes j)
          / (tickAt keyframes (j + 2) - tickAt keyframes j) < 1 := by
        rw [div_lt_one (by linarith)]; linarith
      have : 1 < (tickAt keyframes (j + 1) - tickAt keyframes j)
          / (tickAt keyframes (j + 2) - tickAt keyframes j) * y + 2 := by nlinarith
      linarith
    · intro _
      linarith
  · have := hmono k (k + 1) (by omega) hk
    linarith

/-- Witness for `InterpolateCubicSpline_well_defined`: three keyframes, queried
between the second and the third. -/
theorem InterpolateCubicSpline_well_defined_witness :
    ∃ r, InterpolateCubicSpline sampleKeyframes 0 15 = some r :=
  (InterpolateCubicSpline_well_defined sampleKeyframes 0 15 (by decide) (by decide)
    (by unfold ticksIncreasing; decide)).1

end IWXMVM.MathUtils
